import Mathlib

/-!
Dragon Cave Adventure — formal model of the simulation core

Shallow embedding of `src/dragon_cave_adventure.py` (pygame platformer).
Python floats are modelled as exact rationals `ℚ` except where the source
computes Euclidean norms (`Vector2.distance_to`, `Vector2.normalize`), which
are modelled over `ℝ` via step relations.  pygame `Rect`s store machine
integers; `Rect` assignment from a float truncates toward zero, which we
model with `qtrunc`.  `pygame.Rect.colliderect` is a strict overlap test
(rects that merely touch do not collide).  Python `round` is
round-half-to-even (`pyround`); Python `int()` and C integer division
truncate toward zero (`Int.tdiv` in Lean is exactly C-style T-division).
-/

/-- Axis-aligned pygame rectangle: integer position and size. -/
structure Rect where
  x : ℤ
  y : ℤ
  w : ℤ
  h : ℤ
deriving DecidableEq, Repr

/-- The `pygame.Rect.colliderect` test: strict overlap of two rectangles (rects that
only touch on an edge, and zero-sized rects, do not collide). -/
def collide (a b : Rect) : Prop :=
  a.x < b.x + b.w ∧ b.x < a.x + a.w ∧ a.y < b.y + b.h ∧ b.y < a.y + a.h

instance (a b : Rect) : Decidable (collide a b) := by
  unfold collide; infer_instance

/-- Python `int()` on a float / C int conversion: truncation toward zero. -/
def qtrunc (q : ℚ) : ℤ :=
  if 0 ≤ q then ⌊q⌋ else -⌊-q⌋

/-- Python `round()` on a float: round half to even. -/
def pyround (q : ℚ) : ℤ :=
  let f := ⌊q⌋
  let r := q - (f : ℚ)
  if r < 1/2 then f
  else if (1:ℚ)/2 < r then f + 1
  else if 2 ∣ f then f else f + 1

/-- The four values of `Dragon.state` in the source. -/
inductive DragonState where
  | sleeping
  | waking
  | chasing
  | distracted
deriving DecidableEq, Repr

/-! ## Camera scrolling (`Game.update`, scrolling section)

`SCREEN_WIDTH = 800`, `SCROLL_THRESH = 800 // 3 = 266`.  `world_shift` and
`player.rect.centerx` are integers; `player.vel.x` is a float (here `ℚ`).
`int(abs(self.player.vel.x))` truncates the nonnegative float `|vx|`, i.e.
takes its floor; `scroll_amount` is integer-valued already. -/

/-- The raw `scroll` amount computed from the player's screen position and
horizontal velocity (before clamping to the level bounds). -/
def scrollOf (shift pcx : ℤ) (vx : ℚ) : ℤ :=
  if pcx + shift > 800 - 266 ∧ vx > 0 then
    -(min ⌊|vx|⌋ (pcx + shift - (800 - 266)))
  else if pcx + shift < 266 ∧ vx < 0 then
    min ⌊|vx|⌋ (266 - (pcx + shift))
  else 0

/-- Clamping of `world_shift + scroll` to the level boundaries: zero when the
level fits on the screen, otherwise clamped to `[-(w-800), 0]`. -/
def clampShift (w pot : ℤ) : ℤ :=
  if w ≤ 800 then 0 else max (-(w - 800)) (min 0 pot)

/-- One camera-scroll step of `Game.update`: given the current `world_shift`,
the player's `rect.centerx`, the player's horizontal velocity and the level
width, returns the new `world_shift` and the `actual_scroll` applied to every
non-player sprite. -/
def scrollStep (shift : ℤ) (pcx : ℤ) (vx : ℚ) (w : ℤ) : ℤ × ℤ :=
  let scroll := scrollOf shift pcx vx
  let pot := shift + scroll
  let newShift := clampShift w pot
  (newShift, newShift - (pot - scroll))

/-! ## Harmful contact (`Game.update`, dragon/fireball collision section)

The code uses `pygame.sprite.collide_rect_ratio(0.8)`: both rectangles are
shrunk to 80% of their size about their centres before the overlap test.
`pygame` implements this with `Rect.inflate(w*0.8 - w, h*0.8 - h)`; the float
offsets are converted to C ints by truncation toward zero (for every sprite
size in this game — 30×40, 60×50, 15×15 — the float products are exact, and
`0.8*n - n = -n/5` truncates to `-(n tdiv 5)` for `n ≥ 0`), and
`inflate` shifts the corner by the C quotient `offset / 2` (truncation toward
zero, i.e. `Int.tdiv`). -/

/-- The `pygame.Rect.inflate dx dy` operation: grow by `(dx, dy)` keeping the centre,
with C-style truncating division on the corner offset. -/
def inflate (r : Rect) (dx dy : ℤ) : Rect :=
  { x := r.x - Int.tdiv dx 2, y := r.y - Int.tdiv dy 2, w := r.w + dx, h := r.h + dy }

/-- The inflation offset `int(n*0.8 - n)` used by `collide_rect_ratio(0.8)`:
truncation toward zero of `-n/5` (exact for the sprite sizes used here). -/
def hitboxDelta (n : ℤ) : ℤ := -(Int.tdiv n 5)

/-- A sprite rectangle shrunk to 80% about its centre, as
`pygame.sprite.collide_rect_ratio(0.8)` computes it. -/
def shrink (r : Rect) : Rect := inflate r (hitboxDelta r.w) (hitboxDelta r.h)

/-- The harmful-contact step of `Game.update`: `enemy_hits` are all dragons
whose 80%-hitbox overlaps the player's 80%-hitbox, `fireball_hits` are the
fireballs overlapping likewise (these are killed, i.e. consumed).  The game
transitions to "player defeated" iff some hit dragon is not sleeping or some
fireball hit.  Returns the defeat flag and the surviving fireballs. -/
def harmStep (player : Rect) (dragons : List (Rect × DragonState))
    (fireballs : List Rect) : Bool × List Rect :=
  let enemyHits := dragons.filter (fun d => decide (collide (shrink player) (shrink d.1)))
  let fbHits := fireballs.filter (fun f => decide (collide (shrink player) (shrink f)))
  (enemyHits.any (fun d => decide (d.2 ≠ DragonState.sleeping)) || !fbHits.isEmpty,
   fireballs.filter (fun f => decide (¬ collide (shrink player) (shrink f))))

/-! ## Exit processing followed by harmful contact (`Game.update`, C10)

The exit check (`pygame.sprite.collide_rect`, full rectangles) runs *before*
the harmful-contact check; both can fire in the same tick. -/

/-- Session-level state of `Game` (the field `Game.state` plus the flags and
counters the exit/defeat logic touches). -/
inductive SessionState where
  | start
  | playing
  | levelComplete
  | gameOverLose
  | gameWonAll
deriving DecidableEq, Repr

/-- The session fields read and written by the exit and harmful-contact
checks of `Game.update`. -/
structure Session where
  sstate : SessionState
  totalScore : ℤ
  score : ℤ
  levelIndex : ℕ
  playing : Bool
deriving DecidableEq, Repr

/-- Lines 1194–1222 of `Game.update`: first the exit check (full-rect
collision; on contact the level score is added to the total, the level index
is incremented, the level loop ends and the state becomes level-complete or
game-won), then the harmful-contact check (which overwrites the state with
"game over" on a hit). -/
def exitHarmStep (s : Session) (playerRect exitRect : Rect) (numLevels : ℕ)
    (dragons : List (Rect × DragonState)) (fireballs : List Rect) : Session :=
  let s1 :=
    if collide playerRect exitRect then
      { s with totalScore := s.totalScore + s.score,
               levelIndex := s.levelIndex + 1,
               playing := false,
               sstate := if s.levelIndex + 1 ≥ numLevels then SessionState.gameWonAll
                         else SessionState.levelComplete }
    else s
  if (harmStep playerRect dragons fireballs).1 then
    { s1 with playing := false, sstate := SessionState.gameOverLose }
  else s1

/-! ## Treasures and the BigTreasure (`Game.update`, steps 3–5)

`Game.new` sets `score = 0`, `big_treasure_spawned = False`,
`big_treasure_sprite = None` and `total_treasures_in_level = len(treasures)`.
Each tick, the treasures overlapping the player are removed and the score is
incremented for each; if the level had treasures, none remain and no
BigTreasure has been spawned yet, one BigTreasure is created at the exit
sprite's `(centerx, bottom)`; if the player overlaps the live BigTreasure
the level score is doubled and the sprite is killed. -/

/-- The treasure-related fields of `Game`. -/
structure TreasState where
  score : ℤ
  total : ℕ
  remaining : ℕ
  spawned : Bool
  alive : Bool
  bigPos : Option (ℤ × ℤ)
deriving DecidableEq, Repr

/-- Per-tick inputs to the treasure logic: how many treasures the player
overlaps this tick (`spritecollide` removes them), whether the player's
rectangle overlaps the live BigTreasure, and the exit sprite's current
`(centerx, bottom)`. -/
structure TreasIn where
  collected : ℕ
  overlapBig : Bool
  exitPos : ℤ × ℤ
deriving DecidableEq, Repr

/-- Lines 1157–1192 of `Game.update`: treasure pickup, conditional
BigTreasure spawn, BigTreasure pickup.  Returns the new state and the spawn
event (the position of the BigTreasure created this tick, if any).  The
proximity-chance dragon-waking side effect of treasure pickup touches only
dragons and none of these fields. -/
def treasureStep (s : TreasState) (inp : TreasIn) : TreasState × Option (ℤ × ℤ) :=
  let s1 : TreasState :=
    { s with score := s.score + inp.collected, remaining := s.remaining - inp.collected }
  let doSpawn : Bool := decide (0 < s1.total) && decide (s1.remaining = 0) && !s1.spawned
  let s2 := if doSpawn then
      { s1 with spawned := true, alive := true, bigPos := some inp.exitPos }
    else s1
  let s3 := if s2.alive && inp.overlapBig then
      { s2 with score := s2.score * 2, alive := false, bigPos := none }
    else s2
  (s3, if doSpawn then some inp.exitPos else none)

/-- A run of consecutive ticks of the treasure logic, counting the
BigTreasure spawn events along the way. -/
def treasureRun : TreasState → List TreasIn → TreasState × ℕ
  | s, [] => (s, 0)
  | s, i :: is =>
    let r1 := treasureStep s i
    let r2 := treasureRun r1.1 is
    (r2.1, (if r1.2.isSome then 1 else 0) + r2.2)

/-! ## Fireballs (`Fireball.update` plus the off-screen culling in
`Game.update`)

A fireball stores a float position (its rect centre) and the constant
velocity `direction * FIREBALL_SPEED` fixed at creation (`direction` is the
normalized launch vector, so the velocity has length 5).  `Fireball.update`
moves the position by the velocity, resyncs the 15×15 rect, and kills the
fireball if its rect no longer overlaps `game.world_rect`
(`(0, 0, level_width, 600)`) or overlaps an obstacle.  Later in the same
tick, `Game.update` applies the camera scroll `a` to the position and rect
and then kills any fireball whose rect does not overlap the screen rect
shifted by `-world_shift`. -/

/-- A fireball: float centre position and fixed velocity. -/
structure Fb where
  pos : ℚ × ℚ
  vel : ℚ × ℚ
deriving DecidableEq, Repr

/-- The 15×15 fireball rect with centre at `p` (`rect.center = pos` truncates
each float coordinate toward zero; `centerx = x + 15 // 2` so `x = cx - 7`). -/
def fbRectAt (p : ℚ × ℚ) : Rect :=
  { x := qtrunc p.1 - 7, y := qtrunc p.2 - 7, w := 15, h := 15 }

/-- The rect `game.world_rect = pygame.Rect(0, 0, level_width, SCREEN_HEIGHT)`. -/
def worldRect (w : ℤ) : Rect := { x := 0, y := 0, w := w, h := 600 }

/-- The screen rect moved by `-world_shift`, used by the off-screen culling
loop in `Game.update`. -/
def screenBounds (shift : ℤ) : Rect := { x := -shift, y := 0, w := 800, h := 600 }

/-- The method `Fireball.update`: move by the fixed velocity, then die when the rect no
longer overlaps the world rect or overlaps any obstacle. -/
def fireballUpdate (worldW : ℤ) (obstacles : List Rect) (fb : Fb) : Option Fb :=
  let p := (fb.pos.1 + fb.vel.1, fb.pos.2 + fb.vel.2)
  if ¬ collide (fbRectAt p) (worldRect worldW) then none
  else if obstacles.any (fun ob => decide (collide (fbRectAt p) ob)) then none
  else some { pos := p, vel := fb.vel }

/-- A whole tick for one fireball: `Fireball.update`, then the camera scroll
`a` is applied to its position, then the off-screen culling loop of
`Game.update` kills it unless its rect overlaps the visible window. -/
def fireballTick (worldW : ℤ) (obstacles : List Rect) (a newShift : ℤ)
    (fb : Fb) : Option Fb :=
  match fireballUpdate worldW obstacles fb with
  | none => none
  | some fb1 =>
    let fb2 : Fb := { pos := (fb1.pos.1 + a, fb1.pos.2), vel := fb1.vel }
    if collide (fbRectAt fb2.pos) (screenBounds newShift) then some fb2 else none

/-- Predicate: `r` lies entirely inside `b` (the sense of "bounds remain inside the
world rectangle" in the specification). -/
def insideRect (r b : Rect) : Prop :=
  b.x ≤ r.x ∧ r.x + r.w ≤ b.x + b.w ∧ b.y ≤ r.y ∧ r.y + r.h ≤ b.y + b.h

instance (r b : Rect) : Decidable (insideRect r b) := by
  unfold insideRect; infer_instance

/-! ## Rock-based distraction (`Game.update`, lines 1225–1244, and
`Dragon.get_distracted`)

For each rock that landed this tick (in landing order), the code scans the
dragons in order; the first dragon that is not sleeping *and* whose distance
to the rock's landing point is below `LAND_SOUND_RADIUS = 100` gets
`get_distracted(land_pos)` and the rock is marked for destruction (the loop
then breaks).  `get_distracted` only acts on a chasing or already distracted
dragon.  Distances are compared squared: `distance_to(p) < 100` iff
`dist2 < 100² = 10000`.  The `rock in rocks_to_kill` dedup check in the
source can only fire if one rock object occurred twice in the
newly-landed list, which `DroppedRock.update` never produces (a rock lands
at most once), so it is omitted here. -/

/-- The dragon fields read and written by the distraction resolution. -/
structure RDragon where
  pos : ℚ × ℚ
  state : DragonState
  target : Option (ℚ × ℚ)
deriving DecidableEq, Repr

/-- A dropped rock as the resolution loop sees it: its recorded landing
point, if it has landed (`land_pos`). -/
structure Rock where
  landPos : Option (ℚ × ℚ)
deriving DecidableEq, Repr

/-- Squared Euclidean distance; `Vector2.distance_to p q < r` iff
`dist2 p q < r ^ 2` for `r ≥ 0`. -/
def dist2 (p q : ℚ × ℚ) : ℚ := (p.1 - q.1) ^ 2 + (p.2 - q.2) ^ 2

/-- The method `Dragon.get_distracted(target_pos)`: a chasing or already distracted
dragon becomes distracted with the new target; otherwise nothing happens. -/
def getDistracted (d : RDragon) (t : ℚ × ℚ) : RDragon :=
  if d.state = DragonState.chasing ∨ d.state = DragonState.distracted then
    { d with state := DragonState.distracted, target := some t }
  else d

/-- The per-dragon test of the resolution loop: not sleeping and within 100
units of the landing point. -/
def hearsRock (lp : ℚ × ℚ) (d : RDragon) : Bool :=
  decide (d.state ≠ DragonState.sleeping) && decide (dist2 lp d.pos < 10000)

/-- Index of the first dragon (in group iteration order) satisfying the
hearing test — where the Python loop breaks. -/
def firstHearer (lp : ℚ × ℚ) : List RDragon → Option ℕ
  | [] => none
  | d :: ds => if hearsRock lp d then some 0 else (firstHearer lp ds).map (· + 1)

/-- Replace the `n`-th element of a list by `f` of it. -/
def modifyIdx {α : Type} : List α → ℕ → (α → α) → List α
  | [], _, _ => []
  | a :: l, 0, f => f a :: l
  | a :: l, n + 1, f => a :: modifyIdx l n f

/-- Resolution of one landed rock: distract the first hearer (if any) and
report whether the rock is to be destroyed. -/
def distractFirst (lp : ℚ × ℚ) (ds : List RDragon) : List RDragon × Bool :=
  match firstHearer lp ds with
  | none => (ds, false)
  | some j => (modifyIdx ds j (fun d => getDistracted d lp), true)

/-- The full rock-distraction resolution step: rocks processed in order, each
returning the updated dragons and, aligned with the rocks, whether each rock
was destroyed this tick. -/
def resolveRocks : List Rock → List RDragon → List RDragon × List Bool
  | [], ds => (ds, [])
  | r :: rs, ds =>
    match r.landPos with
    | none =>
      let p := resolveRocks rs ds
      (p.1, false :: p.2)
    | some lp =>
      let q := distractFirst lp ds
      let p := resolveRocks rs q.1
      (p.1, q.2 :: p.2)

/-! ## Dragon creation (`Game.new`, lines 1010–1079)

`Game.new` spawns `num_selected_dragons` dragons: first the catalog
`dragons_start` positions whose x coordinate is at least
`min_spawn_x = level_width * 0.25` (in catalog order, up to the requested
count); if more are needed, the tops of actual `Platform` sprites (not
`Obstacle`s, excluded by `type(plat_sprite) is Platform`) whose `centerx` is
at least `min_spawn_x`, cycling through them in group order; and only when
no platform qualifies, randomized ground positions.  For integer
coordinates, `x >= level_width * 0.25` is exactly `4 * x ≥ level_width`
(the float product is exact in double precision for these magnitudes). -/

/-- A member of the `platforms` sprite group: a `Platform` rectangle or an
`Obstacle` (obstacles are in the group for collision purposes only). -/
structure PlatEnt where
  x : ℤ
  y : ℤ
  w : ℤ
  h : ℤ
  isObstacle : Bool
deriving DecidableEq, Repr

/-- The constant `GROUND_LEVEL = SCREEN_HEIGHT - 40 = 560`. -/
def GROUND_LEVEL : ℤ := 560

/-- The `rect.centerx` of a platform entity (pygame computes `x + w // 2` with
C truncating division; widths are nonnegative, so this is exact). -/
def platCenterx (p : PlatEnt) : ℤ := p.x + Int.tdiv p.w 2

/-- The 25%-of-level-width rule `x >= level_width * 0.25`, as an exact
integer comparison. -/
def pastQuarter (w : ℤ) (x : ℤ) : Prop := 4 * x ≥ w

instance (w x : ℤ) : Decidable (pastQuarter w x) := by
  unfold pastQuarter; infer_instance

/-- The catalog spawn points passing the 25% filter, in catalog order. -/
def predefOf (w : ℤ) (raw : List (ℤ × ℤ)) : List (ℤ × ℤ) :=
  raw.filter (fun pos => decide (pastQuarter w pos.1))

/-- The candidate platform spawn surfaces: tops `(centerx, rect.top)` of
actual `Platform` sprites (not obstacles) whose centre passes the 25%
filter, in group (catalog) order. -/
def candsOf (w : ℤ) (plats : List PlatEnt) : List (ℤ × ℤ) :=
  (plats.filter
    (fun p => !p.isObstacle && decide (pastQuarter w (platCenterx p)))).map
    (fun p => (platCenterx p, p.y))

/-- The no-platform fallback position for the `i`-th extra dragon
(`spawn_area_start_x = max(50, int(level_width * 0.25))`,
`spawn_area_end_x = level_width - 50`, then `random.randint` — supplied by
`oracle` — or the degenerate-range arithmetic of the source). -/
def fallbackPos (w : ℤ) (oracle : ℕ → ℤ) (i : ℕ) : ℤ × ℤ :=
  let start := max 50 (qtrunc ((w : ℚ) / 4))
  let stop := w - 50
  if start ≥ stop then
    let c := Int.fdiv w 2
    if (c : ℚ) < (w : ℚ) / 4 then
      (if (w : ℚ) / 4 < (stop : ℚ) then
        qtrunc ((w : ℚ) / 4 + ((stop : ℚ) - (w : ℚ) / 4) / 2)
      else qtrunc ((w : ℚ) / 4), GROUND_LEVEL)
    else (c, GROUND_LEVEL)
  else (oracle i, GROUND_LEVEL)

/-- The positions of the extra dragons (beyond the usable catalog points):
platform tops cycled in order, or — only when no platform qualifies —
fallback ground positions. -/
def extraOf (w : ℤ) (plats : List PlatEnt) (still : ℕ) (oracle : ℕ → ℤ) :
    List (ℤ × ℤ) :=
  if hc : candsOf w plats = [] then
    (List.range still).map (fallbackPos w oracle)
  else
    (List.range still).map (fun i =>
      (candsOf w plats).get
        ⟨i % (candsOf w plats).length, Nat.mod_lt _ (List.length_pos.mpr hc)⟩)

/-- The dragon spawn positions `(centerx, bottom)` computed by `Game.new`:
usable catalog points first (in order, up to the requested count), then the
extra positions. -/
def dragonSpawnPositions (w : ℤ) (raw : List (ℤ × ℤ)) (plats : List PlatEnt)
    (numToSpawn : ℕ) (oracle : ℕ → ℤ) : List (ℤ × ℤ) :=
  let fromCatalog := (predefOf w raw).take numToSpawn
  fromCatalog ++ extraOf w plats (numToSpawn - fromCatalog.length) oracle

/-! ## Player physics (`Player.update`)

`PLAYER_ACC = 0.5`, `PLAYER_FRICTION = -0.12`, `PLAYER_GRAVITY = 0.6`,
horizontal speed cap 7, snap threshold 0.1, player rect 30×40,
`GROUND_LEVEL = 560`.  `pos` and `vel` are float vectors; the rect stores
integers (`rect.centerx = round(pos.x)` with Python banker's rounding,
`rect.bottom = round(pos.y)`); `pos.x` tracks `rect.centerx` and `pos.y`
tracks `rect.bottom`.  Collision hits are gathered once per axis and then
folded over in group order. -/

/-- The player's 30×40 rect from its top-left corner. -/
def playerRect (rx ry : ℤ) : Rect := { x := rx, y := ry, w := 30, h := 40 }

/-- The state of `Player` read and written by `update`. -/
structure PlayerS where
  pos : ℚ × ℚ
  vel : ℚ × ℚ
  rx : ℤ
  ry : ℤ
  onGround : Bool
deriving DecidableEq, Repr

/-- The horizontal acceleration for this tick: `-0.5` under left input,
`0.5` under right input (right wins if both), plus friction
`vel.x * (-0.12)` only when no horizontal input is held. -/
def accX (vx : ℚ) (left right : Bool) : ℚ :=
  let ax1 := if left then (-(1 / 2) : ℚ) else 0
  let ax2 := if right then (1 / 2 : ℚ) else ax1
  if !left && !right then ax2 + vx * (-(12 / 100)) else ax2

/-- The horizontal speed cap: `if abs(vel.x) > 7: vel.x = ±7`. -/
def clampX (v : ℚ) : ℚ := if |v| > 7 then (if v > 0 then 7 else -7) else v

/-- The anti-drift snap: `if abs(vel.x) < 0.1: vel.x = 0`. -/
def snapX (v : ℚ) : ℚ := if |v| < 1 / 10 then 0 else v

/-- One horizontal collision-loop iteration on `(rect.x, pos.x, vel.x)`:
push the rect out of the hit on the side of motion, then resync `pos.x` to
`rect.centerx` and zero `vel.x`. -/
def stepHitX (st : ℤ × ℚ × ℚ) (hit : Rect) : ℤ × ℚ × ℚ :=
  let rx := if st.2.2 > 0 then hit.x - 30
            else if st.2.2 < 0 then hit.x + hit.w else st.1
  (rx, ((rx + 15 : ℤ) : ℚ), 0)

/-- One vertical collision-loop iteration on
`(rect.y, pos.y, vel.y, on_ground)`: land on top of the hit (sets
`on_ground`), or bump the ceiling; always resync `pos.y` to
`rect.bottom`. -/
def stepHitY (st : ℤ × ℚ × ℚ × Bool) (hit : Rect) : ℤ × ℚ × ℚ × Bool :=
  if st.2.2.1 > 0 then (hit.y - 40, ((hit.y : ℤ) : ℚ), 0, true)
  else if st.2.2.1 < 0 then
    (hit.y + hit.h, ((hit.y + hit.h + 40 : ℤ) : ℚ), 0, st.2.2.2)
  else (st.1, ((st.1 + 40 : ℤ) : ℚ), st.2.2.1, st.2.2.2)

/-- Gather the horizontal hits (rect at the moved x, old y) and fold the
collision loop over them. -/
def resolveXHits (platforms : List Rect) (ry : ℤ) (st : ℤ × ℚ × ℚ) :
    ℤ × ℚ × ℚ :=
  (platforms.filter (fun p => decide (collide (playerRect st.1 ry) p))).foldl
    stepHitX st

/-- Gather the vertical hits (rect at the resolved x, moved y) and fold the
collision loop over them. -/
def resolveYHits (platforms : List Rect) (rx : ℤ) (st : ℤ × ℚ × ℚ × Bool) :
    ℤ × ℚ × ℚ × Bool :=
  (platforms.filter (fun p => decide (collide (playerRect rx st.1) p))).foldl
    stepHitY st

/-- The level-bounds clamp on `(rect.x, pos.x, vel.x)`: left edge at 0 and
right edge at `level_width`, zeroing `vel.x` at either edge. -/
def boundX (levelWidth : ℤ) (st : ℤ × ℚ × ℚ) : ℤ × ℚ × ℚ :=
  let b1 := if st.1 < 0 then ((0 : ℤ), ((15 : ℤ) : ℚ), (0 : ℚ)) else st
  if b1.1 + 30 > levelWidth then
    (levelWidth - 30, ((levelWidth - 30 + 15 : ℤ) : ℚ), 0)
  else b1

/-- The anti-tunnelling fallback: if the rect's bottom is more than 50 below
ground level, snap back onto the ground. -/
def groundFallback (st : ℤ × ℚ × ℚ × Bool) : ℤ × ℚ × ℚ × Bool :=
  if st.1 + 40 > 560 + 50 then (520, (560 : ℚ), 0, true) else st

/-- The method `Player.update`: acceleration and friction, clamp and snap, x move and
collisions, y move and collisions, boundary clamps, ground fallback, and the
final `pos = (rect.centerx, rect.bottom)` sync. -/
def playerUpdate (s : PlayerS) (left right : Bool) (platforms : List Rect)
    (levelWidth : ℤ) : PlayerS :=
  let vx := snapX (clampX (s.vel.1 + accX s.vel.1 left right))
  let vy := s.vel.2 + 3 / 5
  let px0 := s.pos.1 + vx
  let stx := resolveXHits platforms s.ry (pyround px0 - 15, px0, vx)
  let py0 := s.pos.2 + vy
  let sty := resolveYHits platforms stx.1 (pyround py0 - 40, py0, vy, false)
  let bx := boundX levelWidth stx
  let g := groundFallback sty
  { pos := (((bx.1 + 15 : ℤ) : ℚ), ((g.1 + 40 : ℤ) : ℚ)),
    vel := (bx.2.2, g.2.2.1),
    rx := bx.1, ry := g.1, onGround := g.2.2.2 }

/-! ## The dragon state machine (`Dragon.update` and `Dragon.wake_up`)

`Dragon.update` computes Euclidean distances and normalized directions with
`pygame.math.Vector2`, which involve square roots; this part of the code is
therefore embedded as a step relation over `ℝ`.  Timer readings are
milliseconds from `pygame.time.get_ticks()`; the thresholds are
`DRAGON_FIRE_RATE * 1000 / FPS = 2000.0` ms and
`DRAGON_DISTRACTION_TIME * 1000 / FPS = 3000.0` ms.  `wake_up` sets the
state to waking and immediately to chasing in the same call, resetting
`last_fireball`, so waking is transient.  The `spawn` flag records whether a
`Fireball` was created and added to the sprite groups during the tick. -/

/-- The fields of `Dragon` read and written by `update`. -/
structure DragonR where
  pos : ℝ × ℝ
  state : DragonState
  lastFireball : ℝ
  dTarget : Option (ℝ × ℝ)
  dTimer : ℝ

/-- Squared Euclidean distance over `ℝ`; `Vector2.distance_to` is its
square root. -/
def edistSq (p q : ℝ × ℝ) : ℝ := (p.1 - q.1) ^ 2 + (p.2 - q.2) ^ 2

/-- The move `pos += (target - pos).normalize() * DRAGON_SPEED` with
`DRAGON_SPEED = 1.5`: one movement step toward `target`. -/
def movesToward (pos target pos' : ℝ × ℝ) : Prop :=
  pos' = (pos.1 + 1.5 * ((target.1 - pos.1) / Real.sqrt (edistSq pos target)),
          pos.2 + 1.5 * ((target.2 - pos.2) / Real.sqrt (edistSq pos target)))

/-- One tick of `Dragon.update` as a step relation: from dragon `d`, player
position `ppos` and clock reading `now` to the updated dragon `d'`, with
`spawn` true iff a fireball was created.  Mirrors the source branch by
branch: sleeping (wake check, no movement), waking (transient), distracted
(timeout, or move/hold toward the stored target, never firing), chasing
(move when farther than 5 units, then the fire-rate check, which resets
`last_fireball` whenever the interval has elapsed and spawns only if the
direction to the player is non-degenerate). -/
def dragonStep (d : DragonR) (ppos : ℝ × ℝ) (now : ℝ) (d' : DragonR)
    (spawn : Bool) : Prop :=
  match d.state with
  | DragonState.sleeping =>
      (Real.sqrt (edistSq d.pos ppos) < 150 ∧
        d' = { d with state := DragonState.chasing, lastFireball := now } ∧
        spawn = false) ∨
      (¬ Real.sqrt (edistSq d.pos ppos) < 150 ∧ d' = d ∧ spawn = false)
  | DragonState.waking =>
      d' = { d with state := DragonState.chasing } ∧ spawn = false
  | DragonState.distracted =>
      (now - d.dTimer > 3000 ∧
        d' = { d with state := DragonState.chasing, dTarget := none } ∧
        spawn = false) ∨
      (¬ now - d.dTimer > 3000 ∧ ∃ tgt, d.dTarget = some tgt ∧
        ((Real.sqrt (edistSq d.pos tgt) < 10 ∧ d' = d ∧ spawn = false) ∨
         (¬ Real.sqrt (edistSq d.pos tgt) < 10 ∧
           (∃ mid, movesToward d.pos tgt mid ∧ d' = { d with pos := mid }) ∧
           spawn = false)))
  | DragonState.chasing =>
      ∃ mid : ℝ × ℝ,
        ((Real.sqrt (edistSq d.pos ppos) > 5 ∧ movesToward d.pos ppos mid) ∨
         (¬ Real.sqrt (edistSq d.pos ppos) > 5 ∧ mid = d.pos)) ∧
        ((now - d.lastFireball > 2000 ∧
           ((ppos ≠ mid ∧
              d' = { d with pos := mid, lastFireball := now } ∧ spawn = true) ∨
            (ppos = mid ∧
              d' = { d with pos := mid, lastFireball := now } ∧
              spawn = false))) ∨
         (¬ now - d.lastFireball > 2000 ∧ d' = { d with pos := mid } ∧
           spawn = false))

/-! ### Concrete configurations used by witnesses and counterexamples -/

/-- A player rectangle (size `PLAYER_SIZE = (30, 40)`) at the origin. -/
def pRect0 : Rect := { x := 0, y := 0, w := 30, h := 40 }

/-- A dragon rectangle (size `DRAGON_SIZE = (60, 50)`) overlapping `pRect0`
by a single pixel column. -/
def dRectEdge : Rect := { x := 29, y := 0, w := 60, h := 50 }

/-- A dragon rectangle at the origin, fully overlapping `pRect0`. -/
def dRect0 : Rect := { x := 0, y := 0, w := 60, h := 50 }

/-- A fireball rectangle (size `FIREBALL_SIZE = (15, 15)`) overlapping
`pRect0`. -/
def fRect0 : Rect := { x := 5, y := 5, w := 15, h := 15 }

/-- An exit rectangle (size `(40, 60)`) overlapping `pRect0`. -/
def eRect0 : Rect := { x := 10, y := 0, w := 40, h := 60 }

/-- Treasure state just before the last two treasures are collected. -/
def ts5a : TreasState :=
  { score := 4, total := 6, remaining := 2, spawned := false,
    alive := false, bigPos := none }

/-- Tick input collecting those two remaining treasures. -/
def ti5a : TreasIn := { collected := 2, overlapBig := false, exitPos := (1900, 560) }

/-- Treasure state with a live BigTreasure. -/
def ts5b : TreasState :=
  { score := 6, total := 6, remaining := 0, spawned := true,
    alive := true, bigPos := some (1900, 560) }

/-- Tick input in which the player overlaps the live BigTreasure. -/
def ti5b : TreasIn := { collected := 0, overlapBig := true, exitPos := (1900, 560) }

/-- A fireball at `(1000, 300)` moving right at speed 5, far past the
visible window when the camera is at the level's left edge. -/
def fbC4 : Fb := { pos := (1000, 300), vel := (5, 0) }

/-- A rock landed at `(1, 0)`. -/
def rockA : Rock := { landPos := some (1, 0) }

/-- A rock landed at `(51, 0)`. -/
def rockB : Rock := { landPos := some (51, 0) }

/-- A chasing dragon at `(10, 0)`, within hearing range of both rocks. -/
def dragA : RDragon := { pos := (10, 0), state := DragonState.chasing, target := none }

/-- Dragon `dragA` after being distracted by `rockA`. -/
def dragA1 : RDragon :=
  { pos := (10, 0), state := DragonState.distracted, target := some (1, 0) }

/-- Dragon `dragA` after being re-targeted by `rockB`. -/
def dragA2 : RDragon :=
  { pos := (10, 0), state := DragonState.distracted, target := some (51, 0) }

/-- A fragment of the level-1 platform group: the ground platform, one early
platform (before the 25% mark) and one obstacle. -/
def lvl1plats : List PlatEnt :=
  [{ x := 0, y := 560, w := 2000, h := 40, isObstacle := false },
   { x := 200, y := 450, w := 150, h := 20, isObstacle := false },
   { x := 375, y := 510, w := 50, h := 50, isObstacle := true }]

/-- A sleeping dragon at the origin. -/
def dSleep : DragonR :=
  { pos := (0, 0), state := DragonState.sleeping, lastFireball := 0,
    dTarget := none, dTimer := 0 }

/-- Dragon `dSleep` after waking at clock reading 777. -/
def dAwake : DragonR :=
  { pos := (0, 0), state := DragonState.chasing, lastFireball := 777,
    dTarget := none, dTimer := 0 }

/-- A chasing dragon at `(50, 60)` that has never fired. -/
def dChase0 : DragonR :=
  { pos := (50, 60), state := DragonState.chasing, lastFireball := 0,
    dTarget := none, dTimer := 0 }

/-- Dragon `dChase0` after a degenerate fire attempt at clock reading 2500 (the
player exactly at the dragon's position): no fireball, but the cooldown
timer was reset. -/
def dChase1 : DragonR :=
  { pos := (50, 60), state := DragonState.chasing, lastFireball := 2500,
    dTarget := none, dTimer := 0 }

/-- A concrete mid-run session: level 1, total 10, level score 4. -/
def sess0 : Session :=
  { sstate := SessionState.playing, totalScore := 10, score := 4,
    levelIndex := 0, playing := true }

/-! ## Theorems -/

/-- C8: after the camera-scroll step, the world shift stays in
`[-(w-800), 0]` (equivalently the scroll offset `-shift` stays in
`[0, w-800]`) for levels wider than the screen, is exactly `0` for levels no
wider than the screen, and the per-tick change of the offset never exceeds
the player's current horizontal speed. -/
theorem scroll_offset_bounds (shift pcx : ℤ) (vx : ℚ) (w : ℤ)
    (hshift : (w ≤ 800 ∧ shift = 0) ∨ (-(w - 800) ≤ shift ∧ shift ≤ 0)) :
    (w ≤ 800 → (scrollStep shift pcx vx w).1 = 0) ∧
    (800 < w → 0 ≤ -(scrollStep shift pcx vx w).1 ∧
      -(scrollStep shift pcx vx w).1 ≤ w - 800) ∧
    |((scrollStep shift pcx vx w).1 - shift : ℚ)| ≤ |vx| := by
  have habs : (⌊|vx|⌋ : ℚ) ≤ |vx| := Int.floor_le _
  have habs0 : 0 ≤ ⌊|vx|⌋ := Int.floor_nonneg.2 (abs_nonneg _)
  have hsb : |scrollOf shift pcx vx| ≤ ⌊|vx|⌋ := by
    unfold scrollOf
    split
    · rename_i hc
      rw [abs_le]; constructor <;> omega
    · split
      · rename_i hc1 hc
        rw [abs_le]; constructor <;> omega
      · simpa using habs0
  have key : |clampShift w (shift + scrollOf shift pcx vx) - shift| ≤ ⌊|vx|⌋ := by
    unfold clampShift
    rw [abs_le] at hsb ⊢
    rcases hshift with ⟨hw, h0⟩ | ⟨hlo, hhi⟩
    · rw [if_pos hw]; omega
    · split <;> omega
  refine ⟨fun hw => ?_, fun hw => ?_, ?_⟩
  · show clampShift w _ = 0
    unfold clampShift; rw [if_pos hw]
  · show 0 ≤ -clampShift w _ ∧ -clampShift w _ ≤ w - 800
    unfold clampShift; rw [if_neg (by omega)]; omega
  · show |((clampShift w (shift + scrollOf shift pcx vx) : ℚ) - (shift : ℚ))| ≤ |vx|
    calc |((clampShift w (shift + scrollOf shift pcx vx) : ℚ) - (shift : ℚ))|
        = ((|clampShift w (shift + scrollOf shift pcx vx) - shift| : ℤ) : ℚ) := by
          rw [Int.cast_abs, Int.cast_sub]
      _ ≤ (⌊|vx|⌋ : ℚ) := by exact_mod_cast key
      _ ≤ |vx| := habs

/-- Witness for C8 at a concrete reachable configuration (level 1 start:
shift 0, player centre x 700, vx 3, level width 2000). -/
theorem scroll_offset_bounds_w :
    ((2000 : ℤ) ≤ 800 → (scrollStep 0 700 3 2000).1 = 0) ∧
    (800 < (2000 : ℤ) → 0 ≤ -(scrollStep 0 700 3 2000).1 ∧
      -(scrollStep 0 700 3 2000).1 ≤ 2000 - 800) ∧
    |((scrollStep 0 700 3 2000).1 - 0 : ℚ)| ≤ |(3 : ℚ)| :=
  scroll_offset_bounds 0 700 3 2000 (Or.inr ⟨by norm_num, le_refl 0⟩)

/-- C9 counterexample: the player's full rectangle overlaps a chasing
dragon's full rectangle (by one pixel), yet because the code tests the
80%-shrunk hitboxes (`collide_rect_ratio(0.8)`) no defeat is triggered. -/
theorem harm_full_overlap_no_defeat :
    collide pRect0 dRectEdge ∧
    DragonState.chasing ≠ DragonState.sleeping ∧
    (harmStep pRect0 [(dRectEdge, DragonState.chasing)] []).1 = false := by
  refine ⟨by decide, by decide, by decide⟩

/-- C9 amended: the session transitions to player-defeated exactly when the
player's 80%-shrunk rectangle overlaps the 80%-shrunk rectangle of some
non-sleeping dragon or of some live fireball; every fireball whose shrunk
rectangle overlaps the player's is consumed; contact with sleeping dragons
alone never causes defeat. -/
theorem harm_defeat_iff (player : Rect) (dragons : List (Rect × DragonState))
    (fireballs : List Rect) :
    ((harmStep player dragons fireballs).1 = true ↔
      (∃ d ∈ dragons, collide (shrink player) (shrink d.1) ∧
        d.2 ≠ DragonState.sleeping) ∨
      ∃ f ∈ fireballs, collide (shrink player) (shrink f)) ∧
    (∀ f, f ∈ (harmStep player dragons fireballs).2 ↔
      f ∈ fireballs ∧ ¬ collide (shrink player) (shrink f)) ∧
    ((∀ d ∈ dragons, d.2 = DragonState.sleeping) → fireballs = [] →
      (harmStep player dragons fireballs).1 = false) := by
  have hiff : (harmStep player dragons fireballs).1 = true ↔
      (∃ d ∈ dragons, collide (shrink player) (shrink d.1) ∧
        d.2 ≠ DragonState.sleeping) ∨
      ∃ f ∈ fireballs, collide (shrink player) (shrink f) := by
    unfold harmStep
    simp only [Bool.or_eq_true, List.any_eq_true, List.mem_filter,
      decide_eq_true_eq, Bool.not_eq_true', List.isEmpty_eq_false_iff_exists_mem]
    constructor
    · rintro (⟨d, ⟨hd, hc⟩, hs⟩ | ⟨f, hf, hc⟩)
      · exact Or.inl ⟨d, hd, hc, hs⟩
      · exact Or.inr ⟨f, hf, hc⟩
    · rintro (⟨d, hd, hc, hs⟩ | ⟨f, hf, hc⟩)
      · exact Or.inl ⟨d, ⟨hd, hc⟩, hs⟩
      · exact Or.inr ⟨f, hf, hc⟩
  refine ⟨hiff, fun f => ?_, fun hsleep hfb => ?_⟩
  · unfold harmStep
    simp [List.mem_filter]
  · rcases Bool.eq_false_or_eq_true (harmStep player dragons fireballs).1 with h | h
    · exfalso
      rcases hiff.1 h with ⟨d, hd, _, hs⟩ | ⟨f, hf, _⟩
      · exact hs (hsleep d hd)
      · rw [hfb] at hf; exact (List.not_mem_nil f) hf
    · exact h

/-- Witness for C9's amended theorem at concrete inputs: a sleeping dragon
overlapping the player causes no defeat by itself, and an overlapping
fireball is consumed. -/
theorem harm_defeat_iff_w :
    ((harmStep pRect0 [(dRect0, DragonState.sleeping)] [fRect0]).1 = true ↔
      (∃ d ∈ [(dRect0, DragonState.sleeping)],
        collide (shrink pRect0) (shrink d.1) ∧ d.2 ≠ DragonState.sleeping) ∨
      ∃ f ∈ [fRect0], collide (shrink pRect0) (shrink f)) ∧
    (∀ f, f ∈ (harmStep pRect0 [(dRect0, DragonState.sleeping)] [fRect0]).2 ↔
      f ∈ [fRect0] ∧ ¬ collide (shrink pRect0) (shrink f)) ∧
    ((∀ d ∈ [(dRect0, DragonState.sleeping)], d.2 = DragonState.sleeping) →
      [fRect0] = [] →
      (harmStep pRect0 [(dRect0, DragonState.sleeping)] [fRect0]).1 = false) :=
  harm_defeat_iff pRect0 [(dRect0, DragonState.sleeping)] [fRect0]

/-- C10: if in one tick the player overlaps both the exit and harmful
contact fires, the exit is processed first (level score added to the total,
level index incremented) and the harmful-contact check then overwrites the
session state to player-defeated. -/
theorem exit_then_harm_overwrite (s : Session) (playerRect exitRect : Rect)
    (numLevels : ℕ) (dragons : List (Rect × DragonState)) (fireballs : List Rect)
    (hexit : collide playerRect exitRect)
    (hharm : (harmStep playerRect dragons fireballs).1 = true) :
    (exitHarmStep s playerRect exitRect numLevels dragons fireballs).sstate =
      SessionState.gameOverLose ∧
    (exitHarmStep s playerRect exitRect numLevels dragons fireballs).totalScore =
      s.totalScore + s.score ∧
    (exitHarmStep s playerRect exitRect numLevels dragons fireballs).levelIndex =
      s.levelIndex + 1 ∧
    (exitHarmStep s playerRect exitRect numLevels dragons fireballs).playing = false := by
  unfold exitHarmStep
  rw [if_pos hexit, if_pos hharm]
  exact ⟨rfl, rfl, rfl, rfl⟩

/-- Witness for C10: a concrete tick in which the player touches the exit
while overlapping a chasing dragon: the score is banked, the level advances,
and the session still ends defeated. -/
theorem exit_then_harm_overwrite_w :
    (exitHarmStep sess0 pRect0 eRect0 10
      [(dRect0, DragonState.chasing)] []).sstate = SessionState.gameOverLose ∧
    (exitHarmStep sess0 pRect0 eRect0 10
      [(dRect0, DragonState.chasing)] []).totalScore = sess0.totalScore + sess0.score ∧
    (exitHarmStep sess0 pRect0 eRect0 10
      [(dRect0, DragonState.chasing)] []).levelIndex = sess0.levelIndex + 1 ∧
    (exitHarmStep sess0 pRect0 eRect0 10
      [(dRect0, DragonState.chasing)] []).playing = false :=
  exit_then_harm_overwrite sess0 pRect0 eRect0 10
    [(dRect0, DragonState.chasing)] [] (by decide) (by decide)

/-- Once `big_treasure_spawned` is set, a tick never spawns again and never
clears the flag. -/
theorem treasureStep_after_spawn (s : TreasState) (inp : TreasIn)
    (h : s.spawned = true) :
    (treasureStep s inp).1.spawned = true ∧ (treasureStep s inp).2 = none := by
  unfold treasureStep
  simp only [h, Bool.not_true, Bool.and_false, Bool.false_eq_true, if_false]
  constructor
  · split <;> rfl
  · trivial

/-- Once spawned, no later tick of a run spawns another BigTreasure. -/
theorem treasureRun_after_spawn (l : List TreasIn) (s : TreasState)
    (h : s.spawned = true) :
    (treasureRun s l).2 = 0 ∧ (treasureRun s l).1.spawned = true := by
  induction l generalizing s with
  | nil => exact ⟨rfl, h⟩
  | cons i is ih =>
    obtain ⟨h1, h2⟩ := treasureStep_after_spawn s i h
    obtain ⟨ih1, ih2⟩ := ih (treasureStep s i).1 h1
    unfold treasureRun
    refine ⟨?_, ih2⟩
    simp [h2, ih1]

/-- A tick never changes `total_treasures_in_level`, and with zero catalog
treasures never spawns. -/
theorem treasureStep_total_zero (s : TreasState) (inp : TreasIn)
    (h : s.total = 0) :
    (treasureStep s inp).1.total = 0 ∧ (treasureStep s inp).2 = none := by
  unfold treasureStep
  simp [h]
  split <;> rfl

/-- With zero catalog treasures, no run ever spawns a BigTreasure. -/
theorem treasureRun_total_zero (l : List TreasIn) (s : TreasState)
    (h : s.total = 0) :
    (treasureRun s l).2 = 0 := by
  induction l generalizing s with
  | nil => rfl
  | cons i is ih =>
    obtain ⟨h1, h2⟩ := treasureStep_total_zero s i h
    unfold treasureRun
    simp [h2, ih _ h1]

/-- After the BigTreasure is collected (dead but spawned), it stays dead. -/
theorem treasureRun_dead (l : List TreasIn) (s : TreasState)
    (ha : s.alive = false) (hs : s.spawned = true) :
    (treasureRun s l).1.alive = false := by
  induction l generalizing s with
  | nil => exact ha
  | cons i is ih =>
    have hstep : (treasureStep s i).1.alive = false ∧
        (treasureStep s i).1.spawned = true := by
      unfold treasureStep
      simp only [hs, Bool.not_true, Bool.and_false, if_neg Bool.false_ne_true]
      simp [ha]
    unfold treasureRun
    exact ih _ hstep.1 hstep.2

/-- C5: on a level with `N > 0` catalog treasures, the tick collecting the
last remaining treasure spawns exactly one BigTreasure at the exit position
and no later tick spawns another; overlapping the live BigTreasure doubles
the level score and removes it permanently; a level with zero catalog
treasures never spawns one. -/
theorem big_treasure_rules (s : TreasState) (inp : TreasIn) (l : List TreasIn) :
    ((0 < s.total → s.spawned = false → 0 < s.remaining →
      inp.collected = s.remaining →
      (treasureStep s inp).2 = some inp.exitPos ∧
      (treasureStep s inp).1.spawned = true) ∧
     (s.spawned = true → (treasureRun s l).2 = 0)) ∧
    ((s.alive = true → s.spawned = true → inp.overlapBig = true →
      (treasureStep s inp).1.score = 2 * (s.score + inp.collected) ∧
      (treasureStep s inp).1.alive = false ∧
      (treasureStep s inp).1.bigPos = none) ∧
     (s.alive = false → s.spawned = true → (treasureRun s l).1.alive = false)) ∧
    (s.total = 0 → (treasureRun s l).2 = 0) := by
  refine ⟨⟨?_, fun hs => (treasureRun_after_spawn l s hs).1⟩,
    ⟨?_, fun ha hs => treasureRun_dead l s ha hs⟩,
    fun ht => treasureRun_total_zero l s ht⟩
  · intro htot hsp hrem hcoll
    unfold treasureStep
    have hz : s.remaining - inp.collected = 0 := by omega
    simp only [hz, hsp]
    constructor
    · simp [htot]
    · simp [htot]
      split <;> rfl
  · intro ha hs hov
    unfold treasureStep
    simp only [hs, Bool.not_true, Bool.and_false, Bool.false_eq_true, if_false]
    simp only [ha, hov, Bool.and_self, if_true]
    refine ⟨by ring, by trivial, by trivial⟩

/-- Witness for C5 at concrete configurations: spawning the BigTreasure by
collecting the final two treasures, and collecting a live BigTreasure. -/
theorem big_treasure_rules_w :
    ((treasureStep ts5a ti5a).2 = some (1900, 560) ∧
     (treasureStep ts5a ti5a).1.spawned = true) ∧
    ((treasureStep ts5b ti5b).1.score = 2 * (ts5b.score + ti5b.collected) ∧
     (treasureStep ts5b ti5b).1.alive = false ∧
     (treasureStep ts5b ti5b).1.bigPos = none) :=
  ⟨(big_treasure_rules ts5a ti5a []).1.1 (by decide) (by decide) (by decide)
      (by decide),
   (big_treasure_rules ts5b ti5b []).2.1.1 (by decide) (by decide) (by decide)⟩

/-- The method `Fireball.update` in closed form: the fireball advances by its fixed
velocity and survives iff its rect still overlaps the world rect and touches
no obstacle. -/
theorem fireballUpdate_char (worldW : ℤ) (obstacles : List Rect) (fb : Fb) :
    fireballUpdate worldW obstacles fb =
      if collide (fbRectAt (fb.pos.1 + fb.vel.1, fb.pos.2 + fb.vel.2)) (worldRect worldW) ∧
         ∀ ob ∈ obstacles,
           ¬ collide (fbRectAt (fb.pos.1 + fb.vel.1, fb.pos.2 + fb.vel.2)) ob
      then some { pos := (fb.pos.1 + fb.vel.1, fb.pos.2 + fb.vel.2), vel := fb.vel }
      else none := by
  unfold fireballUpdate
  have hany : (obstacles.any (fun ob => decide (collide
      (fbRectAt (fb.pos.1 + fb.vel.1, fb.pos.2 + fb.vel.2)) ob)) = true) ↔
      ∃ ob ∈ obstacles,
        collide (fbRectAt (fb.pos.1 + fb.vel.1, fb.pos.2 + fb.vel.2)) ob := by
    simp [List.any_eq_true]
  by_cases h1 : collide (fbRectAt (fb.pos.1 + fb.vel.1, fb.pos.2 + fb.vel.2))
      (worldRect worldW)
  · rw [if_neg (not_not_intro h1)]
    by_cases h2 : ∃ ob ∈ obstacles,
        collide (fbRectAt (fb.pos.1 + fb.vel.1, fb.pos.2 + fb.vel.2)) ob
    · rw [if_pos (hany.mpr h2)]
      rw [if_neg]
      rintro ⟨-, hall⟩
      obtain ⟨ob, hmem, hc⟩ := h2
      exact hall ob hmem hc
    · rw [if_neg (fun hh => h2 (hany.mp hh))]
      rw [if_pos ⟨h1, fun ob hmem hc => h2 ⟨ob, hmem, hc⟩⟩]
  · rw [if_pos h1]
    rw [if_neg (fun hh => h1 hh.1)]

/-- A fireball's whole tick in closed form: it survives iff it stays over
the world rect, overlaps no obstacle, and (after the camera scroll `a`) its
rect still overlaps the visible window. -/
theorem fireballTick_char (worldW : ℤ) (obstacles : List Rect) (a newShift : ℤ)
    (fb : Fb) :
    fireballTick worldW obstacles a newShift fb =
      if collide (fbRectAt (fb.pos.1 + fb.vel.1, fb.pos.2 + fb.vel.2)) (worldRect worldW) ∧
         (∀ ob ∈ obstacles,
           ¬ collide (fbRectAt (fb.pos.1 + fb.vel.1, fb.pos.2 + fb.vel.2)) ob) ∧
         collide (fbRectAt (fb.pos.1 + fb.vel.1 + a, fb.pos.2 + fb.vel.2))
           (screenBounds newShift)
      then some { pos := (fb.pos.1 + fb.vel.1 + a, fb.pos.2 + fb.vel.2), vel := fb.vel }
      else none := by
  unfold fireballTick
  rw [fireballUpdate_char]
  by_cases h12 : collide (fbRectAt (fb.pos.1 + fb.vel.1, fb.pos.2 + fb.vel.2))
      (worldRect worldW) ∧
      ∀ ob ∈ obstacles,
        ¬ collide (fbRectAt (fb.pos.1 + fb.vel.1, fb.pos.2 + fb.vel.2)) ob
  · rw [if_pos h12]
    dsimp only
    by_cases h3 : collide (fbRectAt (fb.pos.1 + fb.vel.1 + a, fb.pos.2 + fb.vel.2))
        (screenBounds newShift)
    · rw [if_pos h3, if_pos ⟨h12.1, h12.2, h3⟩]
    · rw [if_neg h3, if_neg (fun h => h3 h.2.2)]
  · rw [if_neg h12]
    rw [if_neg (fun h => h12 ⟨h.1, h.2.1⟩)]

/-- C4 counterexample: a fireball whose rect after moving lies entirely
inside the level's world rectangle and overlaps no obstacle is nevertheless
destroyed in that tick, because `Game.update` also culls fireballs whose
rect has left the visible screen window. -/
theorem fireball_inside_world_culled :
    insideRect (fbRectAt (fbC4.pos.1 + fbC4.vel.1, fbC4.pos.2 + fbC4.vel.2))
      (worldRect 2000) ∧
    fbC4.vel.1 ^ 2 + fbC4.vel.2 ^ 2 = 25 ∧
    fireballTick 2000 [] 0 0 fbC4 = none := by
  refine ⟨?_, by norm_num [fbC4], ?_⟩
  · norm_num [fbC4, fbRectAt, qtrunc, insideRect, worldRect]
  · rw [fireballTick_char]
    rw [if_neg]
    rintro ⟨-, -, hc⟩
    norm_num [fbC4, fbRectAt, qtrunc, collide, screenBounds] at hc

/-- C4 amended: each tick a fireball moves by exactly its velocity vector
(fixed at creation as 5 times the normalized launch direction, hence a
5-unit displacement), and it is destroyed exactly when its rect no longer
overlaps the level's world rectangle, overlaps an obstacle, or no longer
overlaps the visible screen window after the camera scroll. -/
theorem fireball_tick_rules (worldW : ℤ) (obstacles : List Rect) (a newShift : ℤ)
    (fb : Fb) :
    (fireballTick worldW obstacles a newShift fb =
        some { pos := (fb.pos.1 + fb.vel.1 + a, fb.pos.2 + fb.vel.2), vel := fb.vel } ↔
      collide (fbRectAt (fb.pos.1 + fb.vel.1, fb.pos.2 + fb.vel.2)) (worldRect worldW) ∧
      (∀ ob ∈ obstacles,
        ¬ collide (fbRectAt (fb.pos.1 + fb.vel.1, fb.pos.2 + fb.vel.2)) ob) ∧
      collide (fbRectAt (fb.pos.1 + fb.vel.1 + a, fb.pos.2 + fb.vel.2))
        (screenBounds newShift)) ∧
    (∀ fb2, fireballTick worldW obstacles a newShift fb = some fb2 →
      fb2.vel = fb.vel ∧ fb2.pos = (fb.pos.1 + fb.vel.1 + a, fb.pos.2 + fb.vel.2)) ∧
    (fb.vel.1 ^ 2 + fb.vel.2 ^ 2 = 25 →
      (fb.pos.1 + fb.vel.1 - fb.pos.1) ^ 2 + (fb.pos.2 + fb.vel.2 - fb.pos.2) ^ 2 = 25) := by
  refine ⟨?_, ?_, ?_⟩
  · rw [fireballTick_char]
    constructor
    · intro h
      by_contra hc
      rw [if_neg hc] at h
      exact Option.noConfusion h
    · intro h
      rw [if_pos h]
  · intro fb2 h
    rw [fireballTick_char] at h
    by_cases hc : collide (fbRectAt (fb.pos.1 + fb.vel.1, fb.pos.2 + fb.vel.2))
        (worldRect worldW) ∧
        (∀ ob ∈ obstacles,
          ¬ collide (fbRectAt (fb.pos.1 + fb.vel.1, fb.pos.2 + fb.vel.2)) ob) ∧
        collide (fbRectAt (fb.pos.1 + fb.vel.1 + a, fb.pos.2 + fb.vel.2))
          (screenBounds newShift)
    · rw [if_pos hc] at h
      cases h
      exact ⟨rfl, rfl⟩
    · rw [if_neg hc] at h
      exact Option.noConfusion h
  · intro h
    calc (fb.pos.1 + fb.vel.1 - fb.pos.1) ^ 2 + (fb.pos.2 + fb.vel.2 - fb.pos.2) ^ 2
        = fb.vel.1 ^ 2 + fb.vel.2 ^ 2 := by ring
      _ = 25 := h

/-- Witness for C4's amended theorem: a fireball surviving a concrete tick
near the camera, and the 5-unit displacement of its velocity `(3, 4)`. -/
theorem fireball_tick_rules_w :
    (fireballTick 2000 [] 0 0 { pos := (100, 300), vel := (3, 4) } =
        some { pos := ((100 : ℚ) + 3 + 0, (300 : ℚ) + 4), vel := ((3 : ℚ), (4 : ℚ)) } ↔
      collide (fbRectAt ((100 : ℚ) + 3, (300 : ℚ) + 4)) (worldRect 2000) ∧
      (∀ ob ∈ ([] : List Rect), ¬ collide (fbRectAt ((100 : ℚ) + 3, (300 : ℚ) + 4)) ob) ∧
      collide (fbRectAt ((100 : ℚ) + 3 + 0, (300 : ℚ) + 4)) (screenBounds 0)) ∧
    (∀ fb2, fireballTick 2000 [] 0 0 { pos := (100, 300), vel := (3, 4) } = some fb2 →
      fb2.vel = ((3 : ℚ), (4 : ℚ)) ∧ fb2.pos = ((100 : ℚ) + 3 + 0, (300 : ℚ) + 4)) ∧
    ((3 : ℚ) ^ 2 + (4 : ℚ) ^ 2 = 25 →
      ((100 : ℚ) + 3 - 100) ^ 2 + ((300 : ℚ) + 4 - 300) ^ 2 = 25) :=
  fireball_tick_rules 2000 [] 0 0 { pos := (100, 300), vel := (3, 4) }

/-- The method `get_distracted` never moves a dragon. -/
theorem getDistracted_pos (d : RDragon) (t : ℚ × ℚ) :
    (getDistracted d t).pos = d.pos := by
  unfold getDistracted; split <;> rfl

/-- The method `get_distracted` neither wakes a dragon nor puts it to sleep. -/
theorem getDistracted_sleeping_iff (d : RDragon) (t : ℚ × ℚ) :
    ((getDistracted d t).state = DragonState.sleeping ↔
      d.state = DragonState.sleeping) := by
  unfold getDistracted
  split
  · rename_i h
    rcases h with h | h <;> simp [h]
  · exact Iff.rfl

/-- The hearing test is invariant under `get_distracted`. -/
theorem hearsRock_getDistracted (lp lp' : ℚ × ℚ) (d : RDragon) :
    hearsRock lp' (getDistracted d lp) = hearsRock lp' d := by
  unfold hearsRock
  rw [getDistracted_pos,
    decide_eq_decide.mpr (not_congr (getDistracted_sleeping_iff d lp))]

/-- The method `get_distracted` never produces the transient waking state. -/
theorem getDistracted_not_waking (d : RDragon) (t : ℚ × ℚ)
    (h : d.state ≠ DragonState.waking) :
    (getDistracted d t).state ≠ DragonState.waking := by
  unfold getDistracted
  split
  · simp
  · exact h

/-- On a chasing or already distracted dragon, `get_distracted` distracts
and (re)targets. -/
theorem getDistracted_active (d : RDragon) (t : ℚ × ℚ)
    (h : d.state = DragonState.chasing ∨ d.state = DragonState.distracted) :
    getDistracted d t =
      { pos := d.pos, state := DragonState.distracted, target := some t } := by
  unfold getDistracted
  rw [if_pos h]

/-- On a sleeping dragon, `get_distracted` is a no-op. -/
theorem getDistracted_asleep (d : RDragon) (t : ℚ × ℚ)
    (h : d.state = DragonState.sleeping) : getDistracted d t = d := by
  unfold getDistracted
  rw [if_neg]
  rw [h]
  rintro (hc | hc) <;> exact DragonState.noConfusion hc

theorem modifyIdx_length {α : Type} (l : List α) (n : ℕ) (f : α → α) :
    (modifyIdx l n f).length = l.length := by
  induction l generalizing n with
  | nil => rfl
  | cons a l ih =>
    cases n with
    | zero => rfl
    | succ n =>
      show (a :: modifyIdx l n f).length = (a :: l).length
      simpa using ih n

theorem get?_modifyIdx_self {α : Type} (l : List α) (n : ℕ) (f : α → α) :
    (modifyIdx l n f).get? n = (l.get? n).map f := by
  induction l generalizing n with
  | nil => rfl
  | cons a l ih =>
    cases n with
    | zero => rfl
    | succ n =>
      show (a :: modifyIdx l n f).get? (n + 1) = ((a :: l).get? (n + 1)).map f
      simpa using ih n

theorem get?_modifyIdx_ne {α : Type} (l : List α) (n m : ℕ) (f : α → α)
    (h : m ≠ n) : (modifyIdx l n f).get? m = l.get? m := by
  induction l generalizing n m with
  | nil => rfl
  | cons a l ih =>
    cases n with
    | zero =>
      cases m with
      | zero => exact absurd rfl h
      | succ m => rfl
    | succ n =>
      cases m with
      | zero => rfl
      | succ m =>
        show (a :: modifyIdx l n f).get? (m + 1) = (a :: l).get? (m + 1)
        simpa using ih n m (fun hc => h (by rw [hc]))

theorem mem_modifyIdx {α : Type} (l : List α) (n : ℕ) (f : α → α) :
    ∀ a ∈ modifyIdx l n f, a ∈ l ∨ ∃ b ∈ l, a = f b := by
  induction l generalizing n with
  | nil => intro a ha; exact absurd ha (by simp [modifyIdx])
  | cons x l ih =>
    cases n with
    | zero =>
      intro a ha
      rcases List.mem_cons.mp ha with h | h
      · exact Or.inr ⟨x, List.mem_cons_self x l, h⟩
      · exact Or.inl (List.mem_cons_of_mem _ h)
    | succ n =>
      intro a ha
      rcases List.mem_cons.mp ha with h | h
      · exact Or.inl (h ▸ List.mem_cons_self x l)
      · rcases ih n a h with h' | ⟨b, hb, hab⟩
        · exact Or.inl (List.mem_cons_of_mem _ h')
        · exact Or.inr ⟨b, List.mem_cons_of_mem _ hb, hab⟩

/-- Distracting the first hearer of one rock does not change which dragon
first hears any landing point. -/
theorem firstHearer_modifyIdx (lp lp' : ℚ × ℚ) (l : List RDragon) (n : ℕ) :
    firstHearer lp' (modifyIdx l n (fun d => getDistracted d lp)) =
      firstHearer lp' l := by
  induction l generalizing n with
  | nil => rfl
  | cons d ds ih =>
    cases n with
    | zero =>
      show firstHearer lp' (getDistracted d lp :: ds) = _
      unfold firstHearer
      rw [hearsRock_getDistracted]
    | succ n =>
      show firstHearer lp' (d :: modifyIdx ds n _) = _
      unfold firstHearer
      rw [ih n]

theorem firstHearer_some (lp : ℚ × ℚ) (l : List RDragon) (j : ℕ)
    (h : firstHearer lp l = some j) :
    ∃ d, l.get? j = some d ∧ hearsRock lp d = true := by
  induction l generalizing j with
  | nil => exact absurd h (by simp [firstHearer])
  | cons d ds ih =>
    unfold firstHearer at h
    by_cases hd : hearsRock lp d
    · rw [if_pos hd] at h
      cases h
      exact ⟨d, rfl, hd⟩
    · rw [if_neg hd] at h
      cases hfd : firstHearer lp ds with
      | none => rw [hfd] at h; exact absurd h (by simp)
      | some j' =>
        rw [hfd] at h
        simp only [Option.map_some', Option.some.injEq] at h
        obtain ⟨d', hd', hh⟩ := ih j' hfd
        exact ⟨d', by rw [← h]; simpa using hd', hh⟩

theorem distractFirst_length (lp : ℚ × ℚ) (ds : List RDragon) :
    (distractFirst lp ds).1.length = ds.length := by
  unfold distractFirst
  cases h : firstHearer lp ds with
  | none => rfl
  | some j => simpa using modifyIdx_length ds j _

theorem distractFirst_firstHearer (lp lp' : ℚ × ℚ) (ds : List RDragon) :
    firstHearer lp' (distractFirst lp ds).1 = firstHearer lp' ds := by
  unfold distractFirst
  cases h : firstHearer lp ds with
  | none => rfl
  | some j => exact firstHearer_modifyIdx lp lp' ds j

theorem distractFirst_pos (lp : ℚ × ℚ) (ds : List RDragon) (i : ℕ) :
    ((distractFirst lp ds).1.get? i).map RDragon.pos =
      (ds.get? i).map RDragon.pos := by
  unfold distractFirst
  cases h : firstHearer lp ds with
  | none => rfl
  | some j =>
    by_cases hij : i = j
    · subst hij
      show ((modifyIdx ds i _).get? i).map RDragon.pos = _
      rw [get?_modifyIdx_self]
      cases ds.get? i <;> simp [getDistracted_pos]
    · show ((modifyIdx ds j _).get? i).map RDragon.pos = _
      rw [get?_modifyIdx_ne ds j i _ hij]

theorem distractFirst_waking (lp : ℚ × ℚ) (ds : List RDragon)
    (h : ∀ d ∈ ds, d.state ≠ DragonState.waking) :
    ∀ d' ∈ (distractFirst lp ds).1, d'.state ≠ DragonState.waking := by
  unfold distractFirst
  cases hf : firstHearer lp ds with
  | none => exact h
  | some j =>
    intro d' hd'
    rcases mem_modifyIdx ds j _ d' hd' with h' | ⟨b, hb, rfl⟩
    · exact h d' h'
    · exact getDistracted_not_waking b lp (h b hb)

theorem resolveRocks_firstHearer (rs : List Rock) (ds : List RDragon)
    (lp' : ℚ × ℚ) :
    firstHearer lp' (resolveRocks rs ds).1 = firstHearer lp' ds := by
  induction rs generalizing ds with
  | nil => rfl
  | cons r rs ih =>
    cases hl : r.landPos with
    | none =>
      simp only [resolveRocks, hl]
      exact ih ds
    | some lp =>
      simp only [resolveRocks, hl]
      rw [ih, distractFirst_firstHearer]

theorem resolveRocks_pos (rs : List Rock) (ds : List RDragon) (i : ℕ) :
    ((resolveRocks rs ds).1.get? i).map RDragon.pos =
      (ds.get? i).map RDragon.pos := by
  induction rs generalizing ds with
  | nil => rfl
  | cons r rs ih =>
    cases hl : r.landPos with
    | none =>
      simp only [resolveRocks, hl]
      exact ih ds
    | some lp =>
      simp only [resolveRocks, hl]
      rw [ih, distractFirst_pos]

theorem resolveRocks_waking (rs : List Rock) (ds : List RDragon)
    (h : ∀ d ∈ ds, d.state ≠ DragonState.waking) :
    ∀ d' ∈ (resolveRocks rs ds).1, d'.state ≠ DragonState.waking := by
  induction rs generalizing ds with
  | nil => exact h
  | cons r rs ih =>
    cases hl : r.landPos with
    | none =>
      simp only [resolveRocks, hl]
      exact ih ds h
    | some lp =>
      simp only [resolveRocks, hl]
      exact ih _ (distractFirst_waking lp ds h)

/-- A dragon that no remaining rock selects is left untouched by the rest of
the resolution. -/
theorem resolveRocks_untouched (rs : List Rock) (ds : List RDragon) (j : ℕ)
    (h : ∀ r ∈ rs, ∀ lp, r.landPos = some lp → firstHearer lp ds ≠ some j) :
    (resolveRocks rs ds).1.get? j = ds.get? j := by
  induction rs generalizing ds with
  | nil => rfl
  | cons r rs ih =>
    cases hl : r.landPos with
    | none =>
      simp only [resolveRocks, hl]
      exact ih ds (fun r' hr' => h r' (List.mem_cons_of_mem _ hr'))
    | some lp =>
      simp only [resolveRocks, hl]
      have hne : firstHearer lp ds ≠ some j := h r (List.mem_cons_self r rs) lp hl
      cases hf : firstHearer lp ds with
      | none =>
        have he : distractFirst lp ds = (ds, false) := by
          unfold distractFirst; rw [hf]
        rw [he]
        exact ih ds (fun r' hr' => h r' (List.mem_cons_of_mem _ hr'))
      | some j' =>
        have hj' : j ≠ j' := fun hc => hne (by rw [hf, hc])
        have he : distractFirst lp ds =
            (modifyIdx ds j' (fun d => getDistracted d lp), true) := by
          unfold distractFirst; rw [hf]
        rw [he]
        have hrest : ∀ r' ∈ rs, ∀ lp', r'.landPos = some lp' →
            firstHearer lp' (modifyIdx ds j' (fun d => getDistracted d lp)) ≠
              some j := by
          intro r' hr' lp' hlp'
          rw [firstHearer_modifyIdx]
          exact h r' (List.mem_cons_of_mem _ hr') lp' hlp'
        rw [ih _ hrest]
        exact get?_modifyIdx_ne ds j' j _ hj'

/-- A distracted dragon stays distracted through the rest of the
resolution. -/
theorem resolveRocks_distracted (rs : List Rock) (ds : List RDragon) (j : ℕ)
    (d : RDragon) (hd : ds.get? j = some d)
    (hs : d.state = DragonState.distracted) :
    ∃ d', (resolveRocks rs ds).1.get? j = some d' ∧
      d'.state = DragonState.distracted := by
  induction rs generalizing ds d with
  | nil => exact ⟨d, hd, hs⟩
  | cons r rs ih =>
    cases hl : r.landPos with
    | none =>
      simp only [resolveRocks, hl]
      exact ih ds d hd hs
    | some lp =>
      simp only [resolveRocks, hl]
      cases hf : firstHearer lp ds with
      | none =>
        have he : distractFirst lp ds = (ds, false) := by
          unfold distractFirst; rw [hf]
        rw [he]
        exact ih ds d hd hs
      | some j' =>
        have he : distractFirst lp ds =
            (modifyIdx ds j' (fun d => getDistracted d lp), true) := by
          unfold distractFirst; rw [hf]
        rw [he]
        by_cases hij : j = j'
        · subst hij
          have hget : (modifyIdx ds j (fun d => getDistracted d lp)).get? j =
              some (getDistracted d lp) := by
            rw [get?_modifyIdx_self, hd]; rfl
          exact ih _ (getDistracted d lp) hget
            (by rw [getDistracted_active d lp (Or.inr hs)])
        · have hget : (modifyIdx ds j' (fun d => getDistracted d lp)).get? j =
              some d := by
            rw [get?_modifyIdx_ne ds j' j _ hij]; exact hd
          exact ih _ d hget hs

/-- Core of the rock-distraction resolution: the rock at position `i` whose
first hearer is dragon `j` is destroyed this tick; dragon `j` ends the tick
distracted; and if no later rock selects dragon `j`, its target is this
rock's landing point. -/
theorem resolveRocks_main (rs : List Rock) (ds : List RDragon)
    (hw : ∀ d ∈ ds, d.state ≠ DragonState.waking)
    (i : ℕ) (r : Rock) (hr : rs.get? i = some r)
    (lp : ℚ × ℚ) (hlp : r.landPos = some lp)
    (j : ℕ) (hj : firstHearer lp ds = some j) :
    (resolveRocks rs ds).2.get? i = some true ∧
    ∃ d1, (resolveRocks rs ds).1.get? j = some d1 ∧
      d1.state = DragonState.distracted ∧
      ((∀ i' r', i < i' → rs.get? i' = some r' → ∀ lp', r'.landPos = some lp' →
          firstHearer lp' ds ≠ some j) → d1.target = some lp) := by
  induction rs generalizing ds i with
  | nil => exact absurd hr (by simp)
  | cons r0 rs ih =>
    cases i with
    | zero =>
      have hr0 : r0 = r := Option.some.inj hr
      subst hr0
      simp only [resolveRocks, hlp]
      have he : distractFirst lp ds =
          (modifyIdx ds j (fun d => getDistracted d lp), true) := by
        unfold distractFirst; rw [hj]
      rw [he]
      obtain ⟨d0, hd0, hh0⟩ := firstHearer_some lp ds j hj
      have hns : d0.state ≠ DragonState.sleeping :=
        of_decide_eq_true ((Bool.and_eq_true _ _).mp hh0).1
      have hnw : d0.state ≠ DragonState.waking := hw d0 (List.get?_mem hd0)
      have hst : d0.state = DragonState.chasing ∨
          d0.state = DragonState.distracted := by
        cases h0 : d0.state with
        | sleeping => exact absurd h0 hns
        | waking => exact absurd h0 hnw
        | chasing => exact Or.inl rfl
        | distracted => exact Or.inr rfl
      have hmod : (modifyIdx ds j (fun d => getDistracted d lp)).get? j =
          some { pos := d0.pos, state := DragonState.distracted,
                 target := some lp } := by
        rw [get?_modifyIdx_self, hd0]
        simp [getDistracted_active d0 lp hst]
      refine ⟨rfl, ?_⟩
      by_cases hnolater : ∀ i' r', 0 < i' → (r0 :: rs).get? i' = some r' →
          ∀ lp', r'.landPos = some lp' → firstHearer lp' ds ≠ some j
      · have hrest : ∀ r' ∈ rs, ∀ lp', r'.landPos = some lp' →
            firstHearer lp' (modifyIdx ds j (fun d => getDistracted d lp)) ≠
              some j := by
          intro r' hr' lp' hlp'
          rw [firstHearer_modifyIdx]
          obtain ⟨i', hi'⟩ := List.mem_iff_get?.mp hr'
          exact hnolater (i' + 1) r' (Nat.succ_pos _) (by simpa using hi')
            lp' hlp'
        refine ⟨⟨d0.pos, DragonState.distracted, some lp⟩, ?_, rfl,
          fun _ => rfl⟩
        rw [resolveRocks_untouched rs _ j hrest]
        exact hmod
      · obtain ⟨d1, hd1, hs1⟩ := resolveRocks_distracted rs _ j _ hmod rfl
        exact ⟨d1, hd1, hs1, fun hall => absurd hall hnolater⟩
    | succ i =>
      have hrtail : rs.get? i = some r := by simpa using hr
      cases hl0 : r0.landPos with
      | none =>
        simp only [resolveRocks, hl0]
        obtain ⟨hk, d1, hd1, hs1, htg⟩ := ih ds hw i hrtail hj
        refine ⟨by simpa using hk, d1, hd1, hs1, fun hall => htg ?_⟩
        intro i' r' hi' hri' lp' hlp'
        exact hall (i' + 1) r' (Nat.succ_lt_succ hi') (by simpa using hri')
          lp' hlp'
      | some lp0 =>
        simp only [resolveRocks, hl0]
        have hw' := distractFirst_waking lp0 ds hw
        have hj' : firstHearer lp (distractFirst lp0 ds).1 = some j := by
          rw [distractFirst_firstHearer]; exact hj
        obtain ⟨hk, d1, hd1, hs1, htg⟩ := ih (distractFirst lp0 ds).1 hw' i
          hrtail hj'
        refine ⟨by simpa using hk, d1, hd1, hs1, fun hall => htg ?_⟩
        intro i' r' hi' hri' lp' hlp'
        rw [distractFirst_firstHearer]
        exact hall (i' + 1) r' (Nat.succ_lt_succ hi') (by simpa using hri')
          lp' hlp'

/-- C2 counterexample: two rocks land in the same tick, both selecting the
same (first and only) dragon.  At the end of the tick the dragon's target is
the landing point of the *second* rock, not the first — so the first rock's
claimed "target set to the rock's landing point by the end of that tick"
fails. -/
theorem rock_distraction_retarget_cx :
    firstHearer (1, 0) [dragA] = some 0 ∧
    dragA.state ≠ DragonState.sleeping ∧
    dist2 (1, 0) dragA.pos < 10000 ∧
    (resolveRocks [rockA, rockB] [dragA]).1 = [dragA2] ∧
    (resolveRocks [rockA, rockB] [dragA]).2 = [true, true] ∧
    dragA2.target ≠ rockA.landPos := by
  have hA : hearsRock (1, 0) dragA = true := by
    simp only [hearsRock, Bool.and_eq_true, decide_eq_true_eq]
    exact ⟨by simp [dragA], by norm_num [dragA, dist2]⟩
  have hF1 : firstHearer (1, 0) [dragA] = some 0 := by
    simp [firstHearer, hA]
  have hg1 : getDistracted dragA (1, 0) = dragA1 := by
    rw [getDistracted_active dragA (1, 0) (Or.inl rfl)]
    rfl
  have hd1 : distractFirst (1, 0) [dragA] = ([dragA1], true) := by
    unfold distractFirst
    rw [hF1]
    show (modifyIdx [dragA] 0 _, true) = _
    simp [modifyIdx, hg1]
  have hB : hearsRock (51, 0) dragA1 = true := by
    simp only [hearsRock, Bool.and_eq_true, decide_eq_true_eq]
    exact ⟨by simp [dragA1], by norm_num [dragA1, dist2]⟩
  have hF2 : firstHearer (51, 0) [dragA1] = some 0 := by
    simp [firstHearer, hB]
  have hg2 : getDistracted dragA1 (51, 0) = dragA2 := by
    rw [getDistracted_active dragA1 (51, 0) (Or.inr rfl)]
    rfl
  have hd2 : distractFirst (51, 0) [dragA1] = ([dragA2], true) := by
    unfold distractFirst
    rw [hF2]
    show (modifyIdx [dragA1] 0 _, true) = _
    simp [modifyIdx, hg2]
  have hrun : resolveRocks [rockA, rockB] [dragA] = ([dragA2], [true, true]) := by
    show resolveRocks (rockA :: rockB :: []) [dragA] = _
    simp only [resolveRocks, rockA, rockB]
    rw [hd1]
    dsimp only
    rw [hd2]
  refine ⟨hF1, by simp [dragA], by norm_num [dragA, dist2], ?_, ?_, ?_⟩
  · rw [hrun]
  · rw [hrun]
  · simp only [dragA2, rockA, ne_eq, Option.some.injEq, Prod.mk.injEq]
    norm_num

/-- C2 amended: for every rock landed this tick whose first non-sleeping
in-range dragon (in iteration order) is dragon `j`, the rock is destroyed
this tick and dragon `j` (with its position unchanged) ends the tick
distracted; its target is the landing point of the *last* such rock — in
particular, when no later rock in the same tick selects dragon `j`, the
target is this rock's landing point.  Triggering distraction on a sleeping
dragon is a no-op.  (The waking state is transient inside `wake_up` and
never observable at the resolution step, hence the hypothesis.) -/
theorem rock_distraction_rules (rocks : List Rock) (dragons : List RDragon)
    (hw : ∀ d ∈ dragons, d.state ≠ DragonState.waking)
    (i : ℕ) (r : Rock) (hr : rocks.get? i = some r)
    (lp : ℚ × ℚ) (hlp : r.landPos = some lp)
    (j : ℕ) (hj : firstHearer lp dragons = some j) :
    ((resolveRocks rocks dragons).2.get? i = some true ∧
     ∃ d1, (resolveRocks rocks dragons).1.get? j = some d1 ∧
       d1.state = DragonState.distracted ∧
       ((∀ i' r', i < i' → rocks.get? i' = some r' →
           ∀ lp', r'.landPos = some lp' → firstHearer lp' dragons ≠ some j) →
         d1.target = some lp)) ∧
    (∀ d t, d.state = DragonState.sleeping → getDistracted d t = d) ∧
    ((resolveRocks rocks dragons).1.get? j).map RDragon.pos =
      (dragons.get? j).map RDragon.pos :=
  ⟨resolveRocks_main rocks dragons hw i r hr lp hlp j hj,
   fun d t h => getDistracted_asleep d t h,
   resolveRocks_pos rocks dragons j⟩

/-- Witness for C2's amended theorem: a single rock landing next to a
chasing dragon. -/
theorem rock_distraction_rules_w :
    ((resolveRocks [rockA] [dragA]).2.get? 0 = some true ∧
     ∃ d1, (resolveRocks [rockA] [dragA]).1.get? 0 = some d1 ∧
       d1.state = DragonState.distracted ∧
       ((∀ i' r', 0 < i' → [rockA].get? i' = some r' →
           ∀ lp', r'.landPos = some lp' →
             firstHearer lp' [dragA] ≠ some 0) →
         d1.target = some ((1 : ℚ), (0 : ℚ)))) ∧
    (∀ d t, d.state = DragonState.sleeping → getDistracted d t = d) ∧
    ((resolveRocks [rockA] [dragA]).1.get? 0).map RDragon.pos =
      ([dragA].get? 0).map RDragon.pos := by
  have hA : hearsRock (1, 0) dragA = true := by
    simp only [hearsRock, Bool.and_eq_true, decide_eq_true_eq]
    exact ⟨by simp [dragA], by norm_num [dragA, dist2]⟩
  have hF1 : firstHearer (1, 0) [dragA] = some 0 := by
    simp [firstHearer, hA]
  exact rock_distraction_rules [rockA] [dragA] (by simp [dragA]) 0 rockA rfl
    (1, 0) rfl 0 hF1

/-- Python `int()` of an integer-valued float is that integer. -/
theorem qtrunc_intCast (n : ℤ) : qtrunc (n : ℚ) = n := by
  unfold qtrunc
  split
  · exact Int.floor_intCast n
  · rw [show -(n : ℚ) = ((-n : ℤ) : ℚ) by push_cast; ring, Int.floor_intCast]
    ring

theorem extraOf_length (w : ℤ) (plats : List PlatEnt) (still : ℕ)
    (oracle : ℕ → ℤ) : (extraOf w plats still oracle).length = still := by
  unfold extraOf
  split <;> simp

/-- C6: for every level setup (width at least the screen width and divisible
by 4, as all catalog widths are) and requested dragon count `N`, exactly `N`
dragon positions are produced: the usable (≥25%-width) catalog points in
catalog order up to `N`; then platform tops (never obstacle tops) at or past
the 25% mark, cycling through them in order; and only when no platform
qualifies, randomized ground-level positions at or past the 25% mark. -/
theorem dragon_spawn_rules (w : ℤ) (raw : List (ℤ × ℤ)) (plats : List PlatEnt)
    (N : ℕ) (oracle : ℕ → ℤ)
    (hw8 : 800 ≤ w) (hw4 : (4 : ℤ) ∣ w)
    (hor : ∀ i, max 50 (qtrunc ((w : ℚ) / 4)) ≤ oracle i ∧ oracle i ≤ w - 50) :
    ∃ extra,
      dragonSpawnPositions w raw plats N oracle =
        (predefOf w raw).take N ++ extra ∧
      (dragonSpawnPositions w raw plats N oracle).length = N ∧
      (∀ q ∈ (predefOf w raw).take N, q ∈ raw ∧ pastQuarter w q.1) ∧
      extra.length = N - min N (predefOf w raw).length ∧
      (∀ q ∈ candsOf w plats, ∃ p ∈ plats, p.isObstacle = false ∧
        pastQuarter w (platCenterx p) ∧ q = (platCenterx p, p.y)) ∧
      (candsOf w plats ≠ [] → ∀ i : ℕ, i < extra.length →
        ∀ hlt : i % (candsOf w plats).length < (candsOf w plats).length,
          extra.get? i =
            some ((candsOf w plats).get ⟨i % (candsOf w plats).length, hlt⟩)) ∧
      (candsOf w plats = [] → ∀ q ∈ extra,
        q.2 = GROUND_LEVEL ∧ pastQuarter w q.1) := by
  obtain ⟨k, rfl⟩ := hw4
  have hk : (200 : ℤ) ≤ k := by omega
  have hq4 : qtrunc ((((4 * k : ℤ) : ℚ)) / 4) = k := by
    rw [show (((4 * k : ℤ) : ℚ)) / 4 = ((k : ℤ) : ℚ) by push_cast; ring,
      qtrunc_intCast]
  refine ⟨extraOf (4 * k) plats (N - ((predefOf (4 * k) raw).take N).length)
    oracle, rfl, ?_, ?_, ?_, ?_, ?_, ?_⟩
  · unfold dragonSpawnPositions
    rw [List.length_append, extraOf_length, List.length_take]
    omega
  · intro q hq
    have hq' : q ∈ predefOf (4 * k) raw := List.take_subset _ _ hq
    unfold predefOf at hq'
    rw [List.mem_filter] at hq'
    exact ⟨hq'.1, of_decide_eq_true hq'.2⟩
  · rw [extraOf_length, List.length_take]
  · intro q hq
    unfold candsOf at hq
    rw [List.mem_map] at hq
    obtain ⟨p, hp, rfl⟩ := hq
    rw [List.mem_filter] at hp
    have hp2 := (Bool.and_eq_true _ _).mp hp.2
    exact ⟨p, hp.1, by simpa using hp2.1, of_decide_eq_true hp2.2, rfl⟩
  · intro hc i hi hlt
    unfold extraOf at hi ⊢
    rw [dif_neg hc] at hi ⊢
    rw [List.get?_map, List.get?_range (by simpa using hi)]
    rfl
  · intro hc q hq
    unfold extraOf at hq
    rw [dif_pos hc] at hq
    rw [List.mem_map] at hq
    obtain ⟨i, hi, rfl⟩ := hq
    unfold fallbackPos
    rw [hq4]
    have hmax : max (50 : ℤ) k = k := max_eq_right (by omega)
    rw [hmax]
    rw [if_neg (by omega : ¬ k ≥ 4 * k - 50)]
    refine ⟨rfl, ?_⟩
    unfold pastQuarter
    have := (hor i).1
    rw [hq4, hmax] at this
    omega

/-- Witness for C6: on a level-1-like setup (width 2000, one usable catalog
point, the ground platform qualifying), requesting 3 dragons yields exactly
3 positions. -/
theorem dragon_spawn_rules_w :
    (dragonSpawnPositions 2000 [(1600, 560)] lvl1plats 3 (fun _ => 600)).length
      = 3 := by
  obtain ⟨extra, -, hlen, -⟩ :=
    dragon_spawn_rules 2000 [(1600, 560)] lvl1plats 3 (fun _ => 600)
      (by norm_num) (by norm_num)
      (fun i => by constructor <;> norm_num [qtrunc])
  exact hlen

/-- Every iteration of the horizontal collision loop zeroes `vel.x`, so the
fold leaves `vel.x` either zeroed or untouched. -/
theorem foldl_stepHitX_velx (l : List Rect) (st : ℤ × ℚ × ℚ) :
    (List.foldl stepHitX st l).2.2 = 0 ∨
    (List.foldl stepHitX st l).2.2 = st.2.2 := by
  induction l generalizing st with
  | nil => exact Or.inr rfl
  | cons h t ih =>
    show (List.foldl stepHitX (stepHitX st h) t).2.2 = 0 ∨ _
    rcases ih (stepHitX st h) with h1 | h1
    · exact Or.inl h1
    · rw [h1]
      exact Or.inl rfl

/-- The boundary clamp either zeroes `vel.x` or leaves it untouched. -/
theorem boundX_velx (w : ℤ) (st : ℤ × ℚ × ℚ) :
    (boundX w st).2.2 = 0 ∨ (boundX w st).2.2 = st.2.2 := by
  unfold boundX
  dsimp only
  split_ifs <;> simp

/-- Value of `vel.x` after the x-resolution and boundary clamp: zero or the incoming
value. -/
theorem boundX_resolveX_velx (w : ℤ) (platforms : List Rect) (ry : ℤ)
    (st : ℤ × ℚ × ℚ) :
    (boundX w (resolveXHits platforms ry st)).2.2 = 0 ∨
    (boundX w (resolveXHits platforms ry st)).2.2 = st.2.2 := by
  rcases boundX_velx w (resolveXHits platforms ry st) with h | h
  · exact Or.inl h
  · rw [h]
    exact foldl_stepHitX_velx _ st

/-- After `Player.update`, `vel.x` is either zero (collision or boundary) or
exactly the clamped-and-snapped accelerated value. -/
theorem playerUpdate_velx (s : PlayerS) (left right : Bool)
    (platforms : List Rect) (w : ℤ) :
    (playerUpdate s left right platforms w).vel.1 = 0 ∨
    (playerUpdate s left right platforms w).vel.1 =
      snapX (clampX (s.vel.1 + accX s.vel.1 left right)) := by
  unfold playerUpdate
  dsimp only
  exact boundX_resolveX_velx w platforms s.ry _

/-- The clamp-then-snap pipeline caps speed at 7 and forbids non-zero values
below 0.1. -/
theorem snapX_clampX_inv (v : ℚ) :
    |snapX (clampX v)| ≤ 7 ∧
    (snapX (clampX v) = 0 ∨ 1 / 10 ≤ |snapX (clampX v)|) := by
  unfold clampX snapX
  split_ifs with h1 h2 h3 h4 h5
  · exact ⟨by norm_num, Or.inl rfl⟩
  · exact ⟨by norm_num, Or.inr (by norm_num)⟩
  · exact ⟨by norm_num, Or.inl rfl⟩
  · exact ⟨by norm_num, Or.inr (by norm_num)⟩
  · exact ⟨by norm_num, Or.inl rfl⟩
  · constructor
    · exact not_lt.mp h1
    · exact Or.inr (not_lt.mp h5)

/-- With no horizontal input, the accelerated velocity is `0.88 · vel.x`. -/
theorem accX_coast (vx : ℚ) : vx + accX vx false false = 22 / 25 * vx := by
  unfold accX
  norm_num
  ring

/-- Horizontal-speed invariant after any update. -/
theorem playerUpdate_velx_le (s : PlayerS) (left right : Bool)
    (platforms : List Rect) (w : ℤ) :
    |(playerUpdate s left right platforms w).vel.1| ≤ 7 := by
  rcases playerUpdate_velx s left right platforms w with h | h
  · rw [h]; norm_num
  · rw [h]; exact (snapX_clampX_inv _).1

/-- One coasting tick multiplies the horizontal speed bound by 0.88. -/
theorem velx_decay (s : PlayerS) (platforms : List Rect) (w : ℤ) (c : ℚ)
    (hc : |s.vel.1| ≤ c) (hc7 : c ≤ 7) :
    |(playerUpdate s false false platforms w).vel.1| ≤ 22 / 25 * c := by
  have h0 : (0 : ℚ) ≤ c := le_trans (abs_nonneg _) hc
  rcases playerUpdate_velx s false false platforms w with h | h
  · rw [h]
    simp only [abs_zero]
    positivity
  · rw [h, accX_coast]
    have habs : |22 / 25 * s.vel.1| ≤ 22 / 25 * c := by
      rw [abs_mul, abs_of_nonneg (by norm_num : (0 : ℚ) ≤ 22 / 25)]
      exact mul_le_mul_of_nonneg_left hc (by norm_num)
    have hle7 : |22 / 25 * s.vel.1| ≤ 7 := le_trans habs (by nlinarith)
    unfold clampX snapX
    rw [if_neg (not_lt.mpr hle7)]
    split_ifs with h2
    · simp only [abs_zero]
      positivity
    · exact habs

/-- A coasting tick from a speed below `5/44` snaps `vel.x` to exactly 0. -/
theorem velx_zero (s : PlayerS) (platforms : List Rect) (w : ℤ)
    (hc : |s.vel.1| < 5 / 44) :
    (playerUpdate s false false platforms w).vel.1 = 0 := by
  rcases playerUpdate_velx s false false platforms w with h | h
  · exact h
  · rw [h, accX_coast]
    have habs : |22 / 25 * s.vel.1| < 1 / 10 := by
      rw [abs_mul, abs_of_nonneg (by norm_num : (0 : ℚ) ≤ 22 / 25)]
      nlinarith [abs_nonneg s.vel.1]
    unfold clampX snapX
    rw [if_neg (not_lt.mpr (le_of_lt (lt_of_lt_of_le habs (by norm_num))))]
    rw [if_pos habs]

/-- C7: after every `Player.update`, the horizontal velocity has magnitude
at most 7 and is never a non-zero value of magnitude below 0.1; and from any
starting state, 36 consecutive ticks with no horizontal input drive the
horizontal velocity to exactly 0. -/
theorem player_velocity_rules (s : PlayerS) (left right : Bool)
    (platforms : List Rect) (w : ℤ) :
    (|(playerUpdate s left right platforms w).vel.1| ≤ 7 ∧
      ((playerUpdate s left right platforms w).vel.1 = 0 ∨
        1 / 10 ≤ |(playerUpdate s left right platforms w).vel.1|)) ∧
    ((fun st => playerUpdate st false false platforms w)^[36] s).vel.1 = 0 := by
  constructor
  · refine ⟨playerUpdate_velx_le s left right platforms w, ?_⟩
    rcases playerUpdate_velx s left right platforms w with h | h
    · exact Or.inl h
    · rw [h]
      exact (snapX_clampX_inv _).2
  · have hbound : ∀ n : ℕ, ∀ st : PlayerS,
        |(((fun st => playerUpdate st false false platforms w)^[n + 1]) st).vel.1| ≤
          7 * (22 / 25) ^ n := by
      intro n
      induction n with
      | zero =>
        intro st
        simpa using playerUpdate_velx_le st false false platforms w
      | succ n ih =>
        intro st
        rw [Function.iterate_succ_apply']
        have hc7 : (7 : ℚ) * (22 / 25) ^ n ≤ 7 := by
          nlinarith [pow_le_one₀ (by norm_num : (0 : ℚ) ≤ 22 / 25)
            (by norm_num : (22 / 25 : ℚ) ≤ 1) (n := n)]
        have := velx_decay
          (((fun st => playerUpdate st false false platforms w)^[n + 1]) st)
          platforms w (7 * (22 / 25) ^ n) (ih st) hc7
        calc |(playerUpdate
              (((fun st => playerUpdate st false false platforms w)^[n + 1]) st)
              false false platforms w).vel.1|
            ≤ 22 / 25 * (7 * (22 / 25) ^ n) := this
          _ = 7 * (22 / 25) ^ (n + 1) := by ring
    have h35 := hbound 34 s
    have hlt : (7 : ℚ) * (22 / 25) ^ 34 < 5 / 44 := by norm_num
    show ((fun st => playerUpdate st false false platforms w)^[35 + 1] s).vel.1 = 0
    rw [Function.iterate_succ_apply']
    exact velx_zero _ platforms w (lt_of_le_of_lt h35 hlt)

/-- C1: a sleeping dragon's tick never moves it and never spawns a
fireball; if the player is strictly within 150 units (Euclidean) it is
chasing by the end of the same tick with the fireball cooldown timer reset
to the current clock reading, and at 150 units or more it stays exactly as
it was. -/
theorem sleeping_dragon_rules (d : DragonR) (ppos : ℝ × ℝ) (now : ℝ)
    (d' : DragonR) (spawn : Bool)
    (hs : d.state = DragonState.sleeping)
    (hstep : dragonStep d ppos now d' spawn) :
    d'.pos = d.pos ∧ spawn = false ∧
    (Real.sqrt (edistSq d.pos ppos) < 150 →
      d'.state = DragonState.chasing ∧ d'.lastFireball = now) ∧
    (150 ≤ Real.sqrt (edistSq d.pos ppos) → d' = d) := by
  unfold dragonStep at hstep
  rw [hs] at hstep
  rcases hstep with ⟨hlt, rfl, rfl⟩ | ⟨hge, rfl, rfl⟩
  · exact ⟨rfl, rfl, fun _ => ⟨rfl, rfl⟩,
      fun hge => absurd hlt (not_lt.mpr hge)⟩
  · exact ⟨rfl, rfl, fun hlt => absurd hlt hge, fun _ => rfl⟩

/-- Witness for C1: a sleeping dragon at the origin with the player 140
units away wakes into chasing with the timer reset. -/
theorem sleeping_dragon_rules_w :
    dAwake.pos = dSleep.pos ∧ false = false ∧
    (Real.sqrt (edistSq dSleep.pos (140, 0)) < 150 →
      dAwake.state = DragonState.chasing ∧ dAwake.lastFireball = 777) ∧
    (150 ≤ Real.sqrt (edistSq dSleep.pos (140, 0)) → dAwake = dSleep) := by
  have hd : Real.sqrt (edistSq dSleep.pos (140, 0)) = 140 := by
    rw [show edistSq dSleep.pos (140, 0) = 19600 by
      norm_num [dSleep, edistSq]]
    rw [show (19600 : ℝ) = 140 ^ 2 by norm_num]
    exact Real.sqrt_sq (by norm_num)
  have hstep : dragonStep dSleep (140, 0) 777 dAwake false := by
    unfold dragonStep
    refine Or.inl ⟨?_, rfl, rfl⟩
    rw [hd]
    norm_num
  exact sleeping_dragon_rules dSleep (140, 0) 777 dAwake false rfl hstep

/-- C3 amended: in the chasing state, when the fire interval has elapsed
but the direction to the player (after movement) is degenerate, no fireball
spawns that tick *and* the cooldown timer is reset to the current clock
reading; consequently the dragon also does not fire on any later tick until
a further full interval has elapsed from the skipped attempt. -/
theorem degenerate_fire_skip (d : DragonR) (p : ℝ × ℝ) (t : ℝ) (d' : DragonR)
    (s : Bool) (p2 : ℝ × ℝ) (t2 : ℝ) (d'' : DragonR) (s2 : Bool)
    (hc : d.state = DragonState.chasing)
    (h1 : dragonStep d p t d' s)
    (hfire : t - d.lastFireball > 2000)
    (hdeg : p = d'.pos)
    (h2 : dragonStep d' p2 t2 d'' s2)
    (hsoon : t2 - t ≤ 2000) :
    s = false ∧ d'.lastFireball = t ∧ s2 = false := by
  unfold dragonStep at h1
  rw [hc] at h1
  obtain ⟨mid, hmove, hf⟩ := h1
  rcases hf with ⟨ht, hcase⟩ | ⟨ht, hd', hs⟩
  · rcases hcase with ⟨hne, hd', hs⟩ | ⟨heq, hd', hs⟩
    · subst hd'
      exact absurd (by simpa using hdeg) hne
    · subst hd'
      subst hs
      refine ⟨rfl, rfl, ?_⟩
      unfold dragonStep at h2
      dsimp only at h2
      obtain ⟨mid2, hmove2, hf2⟩ := h2
      rcases hf2 with ⟨ht2, hcc⟩ | ⟨ht2, hd'', hs2⟩
      · exfalso
        have hgt : (2000 : ℝ) < t2 - t := by simpa using ht2
        linarith
      · exact hs2
  · exact absurd hfire ht

/-- C3 counterexample: a chasing dragon at the player's exact position with
the fire interval elapsed (clock 2500, last fireball 0) skips the spawn but
resets `last_fireball` to 2500.  On the next tick (clock 2517) the player
is 100 units away — direction non-degenerate, more than the interval since
the last *actual* fireball — yet the dragon cannot fire: the skipped
attempt did restart the fire-rate timer, contradicting the claim. -/
theorem degenerate_fire_cx :
    dragonStep dChase0 (50, 60) 2500 dChase1 false ∧
    (2517 : ℝ) - dChase0.lastFireball > 2000 ∧
    ((150 : ℝ), (60 : ℝ)) ≠ dChase1.pos ∧
    ¬ ∃ d3, dragonStep dChase1 ((150 : ℝ), (60 : ℝ)) 2517 d3 true := by
  have hzero : Real.sqrt (edistSq dChase0.pos ((50 : ℝ), (60 : ℝ))) = 0 := by
    rw [show edistSq dChase0.pos ((50 : ℝ), (60 : ℝ)) = 0 by
      norm_num [dChase0, edistSq]]
    exact Real.sqrt_zero
  refine ⟨?_, ?_, ?_, ?_⟩
  · unfold dragonStep
    refine ⟨((50 : ℝ), (60 : ℝ)), Or.inr ⟨?_, rfl⟩,
      Or.inl ⟨?_, Or.inr ⟨rfl, rfl, rfl⟩⟩⟩
    · rw [hzero]; norm_num
    · norm_num [dChase0]
  · norm_num [dChase0]
  · simp only [dChase1, ne_eq, Prod.mk.injEq]
    norm_num
  · rintro ⟨d3, hstep⟩
    unfold dragonStep at hstep
    obtain ⟨mid, hmove, hf⟩ := hstep
    rcases hf with ⟨ht, hcase⟩ | ⟨ht, hd, hs⟩
    · simp only [dChase1] at ht
      norm_num at ht
    · exact Bool.noConfusion hs

/-- Witness for C3's amended theorem: the two-tick chain of
`degenerate_fire_cx`, driven through the amended theorem. -/
theorem degenerate_fire_skip_w :
    false = false ∧ dChase1.lastFireball = 2500 ∧ false = false := by
  have h100 : Real.sqrt (edistSq dChase1.pos ((150 : ℝ), (60 : ℝ))) = 100 := by
    rw [show edistSq dChase1.pos ((150 : ℝ), (60 : ℝ)) = 10000 by
      norm_num [dChase1, edistSq]]
    rw [show (10000 : ℝ) = 100 ^ 2 by norm_num]
    exact Real.sqrt_sq (by norm_num)
  have hzero : Real.sqrt (edistSq dChase0.pos ((50 : ℝ), (60 : ℝ))) = 0 := by
    rw [show edistSq dChase0.pos ((50 : ℝ), (60 : ℝ)) = 0 by
      norm_num [dChase0, edistSq]]
    exact Real.sqrt_zero
  have h1 : dragonStep dChase0 (50, 60) 2500 dChase1 false := by
    unfold dragonStep
    refine ⟨((50 : ℝ), (60 : ℝ)), Or.inr ⟨?_, rfl⟩,
      Or.inl ⟨?_, Or.inr ⟨rfl, rfl, rfl⟩⟩⟩
    · rw [hzero]; norm_num
    · norm_num [dChase0]
  have h2 : dragonStep dChase1 ((150 : ℝ), (60 : ℝ)) 2517
      { pos := ((103 : ℝ) / 2, (60 : ℝ)), state := DragonState.chasing,
        lastFireball := 2500, dTarget := none, dTimer := 0 } false := by
    unfold dragonStep
    refine ⟨((103 : ℝ) / 2, (60 : ℝ)), Or.inl ⟨?_, ?_⟩,
      Or.inr ⟨?_, rfl, rfl⟩⟩
    · rw [h100]; norm_num
    · unfold movesToward
      rw [show edistSq dChase1.pos ((150 : ℝ), (60 : ℝ)) = 10000 by
        norm_num [dChase1, edistSq]]
      rw [show (10000 : ℝ) = 100 ^ 2 by norm_num,
        Real.sqrt_sq (by norm_num : (0 : ℝ) ≤ 100)]
      norm_num [dChase1, Prod.mk.injEq]
    · norm_num [dChase1]
  exact degenerate_fire_skip dChase0 (50, 60) 2500 dChase1 false
    ((150 : ℝ), (60 : ℝ)) 2517 _ false rfl h1 (by norm_num [dChase0]) rfl h2
    (by norm_num)
